import Mathlib

/-!
Verification development for the mpiP profiling-report parsing engine
(`mpip_parser.py`).  The Python source is shallowly embedded below: every
regular-expression search of the source is modelled as an explicit scan over
`List Char` with the same leftmost-match and greediness behaviour, Python
`str.split()` / `str.strip()` / `str.isdigit()` / `int()` / `float()` are
modelled by executable functions over characters, and each `_extract_*`
method of class `MPIPParser` becomes a total Lean function.  Fallible
coercions return `Option`; a `try ... except ValueError: continue` row loop
becomes a `filterMap`.

Modelling notes.
* Floating-point values are represented exactly as `mantissa * 10 ^ exponent`
  (`PyFloat`).  No claim under verification depends on IEEE-754 rounding, so
  this exact-decimal model is adequate; tokens such as `inf`, `nan` and
  underscore digit grouping (accepted by Python `float()` / `int()` but never
  produced by mpiP tables and irrelevant to every claim) are out of scope of
  the model.
* `str.isdigit()` is modelled over the ASCII digits; the non-ASCII Unicode
  digits it additionally accepts cannot occur in the byte-oriented mpiP
  reports (the file is read as latin-1, and all tokens of interest are ASCII).
* Python `dict` preserves insertion order, so the summary dictionaries are
  modelled as insertion-ordered association lists.
* `list(set(...))` (used for the node list) produces the distinct elements in
  an unspecified order; it is modelled with `List.dedup`.  Only the length of
  that list (`num_nodes`) is claimed about, and the length is
  order-independent.
-/

set_option maxRecDepth 100000

/-- Value of a list of ASCII digit characters, most significant first. -/
def digitsVal (ds : List Char) : Nat :=
  ds.foldl (fun a c => 10 * a + (c.toNat - 48)) 0

/-- `10 ^ n` as an integer, by structural recursion (kernel-reducible). -/
def pow10 : Nat → Int
  | 0 => 1
  | n + 1 => 10 * pow10 n

/-- Python `str.isdigit()`: nonempty and all characters are digits. -/
def pyIsDigit (s : String) : Bool :=
  !s.toList.isEmpty && s.toList.all Char.isDigit

/-- Worker for Python `str.split()` (no argument): accumulate the current
token (in reverse) and emit maximal runs of non-whitespace characters. -/
def wsTokensAux (cur : List Char) : List Char → List String
  | [] => if cur.isEmpty then [] else [String.mk cur.reverse]
  | c :: rest =>
    if c.isWhitespace then
      if cur.isEmpty then wsTokensAux [] rest
      else String.mk cur.reverse :: wsTokensAux [] rest
    else wsTokensAux (c :: cur) rest

/-- Python `str.split()` with no separator: maximal whitespace-free runs. -/
def pySplitWs (s : String) : List String :=
  wsTokensAux [] s.toList

/-- Python `str.strip()` over characters: drop leading and trailing
whitespace. -/
def pyStripChars (cs : List Char) : List Char :=
  ((cs.dropWhile Char.isWhitespace).reverse.dropWhile Char.isWhitespace).reverse

/-- Python `str.strip()`. -/
def pyStrip (s : String) : String :=
  String.mk (pyStripChars s.toList)

/-- Split a character list at each newline, keeping empty fragments
(Python `str.split('\n')`). -/
def linesAux (cur : List Char) : List Char → List String
  | [] => [String.mk cur.reverse]
  | c :: rest =>
    if c = '\n' then String.mk cur.reverse :: linesAux [] rest
    else linesAux (c :: cur) rest

/-- Python `s.split('\n')`. -/
def pyLines (s : String) : List String :=
  linesAux [] s.toList

/-- Python `str.startswith(pre)`. -/
def pyStartsWith (s pre : String) : Bool :=
  pre.toList.isPrefixOf s.toList

/-- ASCII lowercase of one character (Python `str.lower()` is applied only to
ASCII metadata values in this program). -/
def lowerStr (s : String) : String :=
  String.mk (s.toList.map Char.toLower)

/-- Python `' '.join(tokens)`. -/
def joinSpace : List String → String
  | [] => ""
  | [t] => t
  | t :: rest => t ++ " " ++ joinSpace rest

/-- Split `hay` at the first occurrence of `pat`: returns the part strictly
before the occurrence and the part strictly after it.  `none` when `pat` does
not occur.  This models the leftmost-match rule of `re.search`. -/
def findSplit : List Char → List Char → Option (List Char × List Char)
  | [], pat => if pat.isEmpty then some ([], []) else none
  | c :: rest, pat =>
    if pat.isPrefixOf (c :: rest) then some ([], (c :: rest).drop pat.length)
    else
      match findSplit rest pat with
      | some (pre, post) => some (c :: pre, post)
      | none => none

/-- Python `pat in hay` (substring containment). -/
def strContains (hay pat : String) : Bool :=
  (findSplit hay.toList pat.toList).isSome

/-- Python `int(token)`: optional sign followed by one or more digits. -/
def pyInt (s : String) : Option Int :=
  match s.toList with
  | '+' :: rest =>
    if !rest.isEmpty && rest.all Char.isDigit then some (digitsVal rest) else none
  | '-' :: rest =>
    if !rest.isEmpty && rest.all Char.isDigit then some (-(digitsVal rest : Int)) else none
  | cs =>
    if !cs.isEmpty && cs.all Char.isDigit then some (digitsVal cs) else none

/-- Exact decimal value `man * 10 ^ exp`, the model of a parsed Python
float. -/
structure PyFloat where
  man : Int
  exp : Int
deriving DecidableEq, Repr

/-- Strict order on exact decimals (used only to state that one parsed time
is larger than another). -/
def PyFloat.lt (a b : PyFloat) : Bool :=
  let m := min a.exp b.exp
  a.man * pow10 (a.exp - m).toNat < b.man * pow10 (b.exp - m).toNat

/-- Addition of exact decimals (for the summed `operation_times`). -/
def PyFloat.add (a b : PyFloat) : PyFloat :=
  let m := min a.exp b.exp
  ⟨a.man * pow10 (a.exp - m).toNat + b.man * pow10 (b.exp - m).toNat, m⟩

/-- Exponent suffix of a Python float literal: digits with optional sign,
ending the token.  `base` is the value parsed so far. -/
def expDigits (base : PyFloat) (cs : List Char) : Option PyFloat :=
  let sgnRest : Int × List Char :=
    match cs with
    | '+' :: r => (1, r)
    | '-' :: r => (-1, r)
    | r => (1, r)
  let ds := sgnRest.2.takeWhile Char.isDigit
  let tail := sgnRest.2.dropWhile Char.isDigit
  if !ds.isEmpty && tail.isEmpty then
    some ⟨base.man, base.exp + sgnRest.1 * (digitsVal ds : Int)⟩
  else none

/-- Optional `e`/`E` exponent part of a Python float literal. -/
def expPart (base : PyFloat) : List Char → Option PyFloat
  | [] => some base
  | 'e' :: rest => expDigits base rest
  | 'E' :: rest => expDigits base rest
  | _ => none

/-- Unsigned part of the Python `float()` grammar:
`digits [. digits] [exp]` or `. digits [exp]`. -/
def parseUnsignedFloat (cs : List Char) : Option PyFloat :=
  let ip := cs.takeWhile Char.isDigit
  let rest := cs.dropWhile Char.isDigit
  match rest with
  | '.' :: rest2 =>
    let fp := rest2.takeWhile Char.isDigit
    let rest3 := rest2.dropWhile Char.isDigit
    if ip.isEmpty && fp.isEmpty then none
    else
      expPart ⟨(digitsVal ip : Int) * pow10 fp.length + (digitsVal fp : Int),
               -(fp.length : Int)⟩ rest3
  | _ =>
    if ip.isEmpty then none else expPart ⟨(digitsVal ip : Int), 0⟩ rest

/-- Python `float(token)`. -/
def pyFloat (s : String) : Option PyFloat :=
  match s.toList with
  | '+' :: rest => parseUnsignedFloat rest
  | '-' :: rest => (parseUnsignedFloat rest).map fun q => ⟨-q.man, q.exp⟩
  | cs => parseUnsignedFloat cs

/-- Try to match the pattern `<key>\s*:\s*(.+)` at the head of `cs`
(`key` is a literal, `\s*` may cross newlines, `.+` is the maximal nonempty
newline-free run).  Returns the captured group. -/
def matchKeyAt (key cs : List Char) : Option String :=
  if key.isPrefixOf cs then
    match (cs.drop key.length).dropWhile Char.isWhitespace with
    | ':' :: rest2 =>
      let rest3 := rest2.dropWhile Char.isWhitespace
      let v := rest3.takeWhile fun c => c ≠ '\n'
      if v.isEmpty then none else some (String.mk v)
    | _ => none
  else none

/-- `re.search(r'<key>\s*:\s*(.+)', content).group(1)`: leftmost position at
which the whole pattern matches. -/
def searchKeyValueAux (key : List Char) : List Char → Option String
  | [] => none
  | c :: rest =>
    match matchKeyAt key (c :: rest) with
    | some v => some v
    | none => searchKeyValueAux key rest

/-- Search `content` for the single-line metadata pattern
`<key>\s*:\s*(.+)` and return the raw captured value. -/
def keyValueOf (content key : String) : Option String :=
  searchKeyValueAux key.toList content.toList

/-- The literal part of the `--batch-size\s+(\d+)` pattern. -/
def batchFlagChars : List Char := "--batch-size".toList

/-- Try to match `--batch-size\s+(\d+)` at the head of `cs`; on success
return the integer value of the (maximal) digit group. -/
def matchBatchAt (cs : List Char) : Option Nat :=
  if batchFlagChars.isPrefixOf cs then
    if !((cs.drop batchFlagChars.length).takeWhile Char.isWhitespace).isEmpty &&
        !(((cs.drop batchFlagChars.length).dropWhile Char.isWhitespace).takeWhile
          Char.isDigit).isEmpty then
      some (digitsVal (((cs.drop batchFlagChars.length).dropWhile
        Char.isWhitespace).takeWhile Char.isDigit))
    else none
  else none

/-- `re.search(r'--batch-size\s+(\d+)', cmd)`: first position where the whole
pattern matches. -/
def findBatchSize : List Char → Option Nat
  | [] => none
  | c :: rest =>
    match matchBatchAt (c :: rest) with
    | some n => some n
    | none => findBatchSize rest

/-- The literal part of the task-assignment pattern. -/
def taskAssignChars : List Char := "@ MPI Task Assignment".toList

/-- Try to match `@ MPI Task Assignment\s*:\s*(\d+)\s+(\S+)` at the head of
`cs`; on success return rank, node and the remainder after the match. -/
def matchTaskAt (cs : List Char) : Option ((Nat × String) × List Char) :=
  if taskAssignChars.isPrefixOf cs then
    match (cs.drop taskAssignChars.length).dropWhile Char.isWhitespace with
    | ':' :: rest2 =>
      let rest3 := rest2.dropWhile Char.isWhitespace
      let ds := rest3.takeWhile Char.isDigit
      let rest4 := rest3.dropWhile Char.isDigit
      let ws := rest4.takeWhile Char.isWhitespace
      let rest5 := rest4.dropWhile Char.isWhitespace
      let nd := rest5.takeWhile fun c => !c.isWhitespace
      let rest6 := rest5.dropWhile fun c => !c.isWhitespace
      if !ds.isEmpty && !ws.isEmpty && !nd.isEmpty then
        some ((digitsVal ds, String.mk nd), rest6)
      else none
    | _ => none
  else none

/-- `re.finditer` over the task-assignment pattern: scan left to right,
continuing after the end of each (non-overlapping) match.  `fuel` bounds the
recursion; each step consumes at least one character, so `cs.length` fuel is
exact. -/
def findTaskAux : Nat → List Char → List (Nat × String)
  | 0, _ => []
  | _, [] => []
  | fuel + 1, c :: rest =>
    match matchTaskAt (c :: rest) with
    | some (p, remainder) => p :: findTaskAux fuel remainder
    | none => findTaskAux fuel rest

/-- All `@ MPI Task Assignment : <rank> <node>` matches of the document, in
document order. -/
def findTaskAssignments (content : String) : List (Nat × String) :=
  findTaskAux content.toList.length content.toList

/-- The terminator of every table section: a newline followed by a run of
dashes (the regexes use eleven literal dashes). -/
def termChars : List Char := "\n-----------".toList

/-- Search for a whole-section match of
`<marker>.*?\n(.*?)\n-----------` (with `re.DOTALL`) starting at each
position in turn: at a position where `marker` matches, the non-greedy
`.*?\n` ends at the first newline after the marker, and the capture extends
to the nearest later `\n-----------`.  If either is missing the search moves
on to the next position. -/
def locateFrom (marker : List Char) : List Char → Option (List Char)
  | [] => none
  | c :: rest =>
    (if marker.isPrefixOf (c :: rest) then
      match findSplit ((c :: rest).drop marker.length) ['\n'] with
      | some (_, afterLine) =>
        match findSplit afterLine termChars with
        | some (body, _) => some body
        | none => locateFrom marker rest
      | none => locateFrom marker rest
    else locateFrom marker rest)

/-- The Section Locator: the span strictly between the header-marker line and
the nearest following dash line, or `none` when the marker is absent. -/
def locateSection (content marker : String) : Option String :=
  (locateFrom marker.toList content.toList).map String.mk

example : keyValueOf "x\n@ Version  : 1.0 beta \ny" "@ Version" = some "1.0 beta " := by decide
example : keyValueOf "@ Versionx : 1" "@ Version" = none := by decide
example : findBatchSize "run --batch-size  64 x".toList = some 64 := by decide
example : findBatchSize "run --batch-sizes 64".toList = none := by decide
example : findTaskAssignments "@ MPI Task Assignment : 0 n1\n@ MPI Task Assignment : 1 n2\n" =
    [(0, "n1"), (1, "n2")] := by decide
example : locateSection "x\n@--- T ---\nheader\nrow 1\n-----------\n" "@--- T" =
    some "header\nrow 1" := by decide
example : locateSection "x\n@--- U ---\n" "@--- T" = none := by decide
/-- A task / rank field: an integer rank or the aggregate-sentinel that the
code produces for the profiler's `*` marker (the Python code stores the
string `'aggregate'` there; a tagged union models it, and the sentinel is a
distinct constructor, hence distinct from every integer). -/
inductive TaskVal where
  | rank : Int → TaskVal
  | aggregate : TaskVal
deriving DecidableEq, Repr

/-- A parsed batch size, or the absent-sentinel (the Python code stores the
string `'N/A'`). -/
inductive BatchSize where
  | val : Nat → BatchSize
  | na : BatchSize
deriving DecidableEq, Repr

/-- One `@ MPI Task Assignment : <rank> <node>` line. -/
structure TaskAssignment where
  rank : Nat
  node : String
deriving DecidableEq, Repr

/-- Result of `_extract_run_info`.  `Option` fields model keys that the
Python dict only receives when the corresponding metadata line is present;
`batch_size` is present exactly when the command line is. -/
structure RunInfo where
  command : Option String
  batch_size : Option BatchSize
  version : Option String
  start_time : Option String
  stop_time : Option String
  mpip_env_var : Option String
  task_assignments : List TaskAssignment
  num_processes : Nat
  nodes : List String
  num_nodes : Nat
deriving DecidableEq, Repr

/-- One row of the MPI Time table. -/
structure TimeStatRow where
  task : TaskVal
  app_time : PyFloat
  mpi_time : PyFloat
  mpi_percentage : PyFloat
deriving DecidableEq, Repr

/-- Result of `_extract_mpi_time_stats`: `task_stats = none` models the empty
dict `{}` returned when the section is absent; `aggregate` is the optional
separately-exposed `*` row. -/
structure MpiTimeStats where
  task_stats : Option (List TimeStatRow)
  aggregate : Option TimeStatRow
deriving DecidableEq, Repr

/-- One row of the Aggregate Time table. -/
structure AggOp where
  call_type : String
  site : Int
  time_ms : PyFloat
  app_percentage : PyFloat
  mpi_percentage : PyFloat
  count : Int
  cov : PyFloat
deriving DecidableEq, Repr

/-- Result of `_extract_aggregate_time_stats`. -/
structure AggStats where
  operations : List AggOp
deriving DecidableEq, Repr

/-- One row of the Aggregate Sent Message Size table. -/
structure MsgOp where
  call_type : String
  site : Int
  count : Int
  total_bytes : PyFloat
  avg_bytes : PyFloat
  sent_percentage : PyFloat
deriving DecidableEq, Repr

/-- Result of `_extract_message_size_stats`. -/
structure MsgStats where
  operations : List MsgOp
deriving DecidableEq, Repr

/-- One row of the Callsite Time statistics table. -/
structure CallsiteRecord where
  name : String
  site : Int
  rank : TaskVal
  count : Int
  max_time : PyFloat
  mean_time : PyFloat
  min_time : PyFloat
  app_percentage : PyFloat
  mpi_percentage : PyFloat
deriving DecidableEq, Repr

/-- Result of `_extract_callsite_stats`. -/
structure CallsiteStats where
  callsites : List CallsiteRecord
deriving DecidableEq, Repr

/-- Result of `_generate_summary`.  `Option` fields model dict keys that are
set only conditionally. -/
structure Summary where
  num_processes : Nat
  num_nodes : Nat
  batch_size : BatchSize
  total_mpi_percentage : Option PyFloat
  total_app_time : Option PyFloat
  total_mpi_time : Option PyFloat
  top_operations : Option (List AggOp)
  operation_counts : Option (List (String × Nat))
  operation_times : Option (List (String × PyFloat))
deriving DecidableEq, Repr

/-- The assembled record of `parse_file` (its purely I/O fields — filename,
filepath, parsing timestamp — are outside the parsing model). -/
structure ParsedRecord where
  interface_type : String
  run_info : RunInfo
  mpi_time_stats : MpiTimeStats
  aggregate_time_stats : AggStats
  message_size_stats : MsgStats
  callsite_stats : CallsiteStats
  summary : Summary
deriving DecidableEq, Repr

/-- Section markers: the literal prefixes of the four section regexes. -/
def mpiTimeMarker : String := "@--- MPI Time (seconds) ---"

/-- Marker of the Aggregate Time section. -/
def aggTimeMarker : String := "@--- Aggregate Time (top twenty"

/-- Marker of the Aggregate Sent Message Size section. -/
def msgSizeMarker : String := "@--- Aggregate Sent Message Size"

/-- Marker of the Callsite Time statistics section. -/
def callsiteMarker : String := "@--- Callsite Time statistics"

/-- `section.group(1).strip().split('\n')`: the data lines handed to a row
loop. -/
def sectionLines (body : String) : List String :=
  pyLines (pyStrip body)

/-- The row loop shared by all four table extractors: each line either
contributes one parsed row or is silently skipped; no line aborts the loop. -/
def tableRows {α : Type} (step : String → Option α) (lines : List String) : List α :=
  lines.filterMap step

/-- Parse the whitespace-split parts of one MPI Time row:
`task app_time mpi_time mpi_percentage`, needing at least 4 parts, with `*`
in the task position mapped to the aggregate-sentinel.  Any coercion failure
(the `except ValueError` path) yields `none`. -/
def parseMpiParts : List String → Option TimeStatRow
  | p0 :: p1 :: p2 :: p3 :: _ =>
    (if p0 = "*" then some TaskVal.aggregate else (pyInt p0).map TaskVal.rank).bind fun task =>
    (pyFloat p1).bind fun a =>
    (pyFloat p2).bind fun m =>
    (pyFloat p3).map fun pct =>
      { task := task, app_time := a, mpi_time := m, mpi_percentage := pct }
  | _ => none

/-- One iteration of the MPI Time row loop, including the blank-line and
`Task` header guards. -/
def mpiLineStep (line : String) : Option TimeStatRow :=
  if pyStrip line ≠ "" ∧ ¬ pyStartsWith line "Task" then parseMpiParts (pySplitWs line)
  else none

/-- `_extract_mpi_time_stats`. -/
def extract_mpi_time_stats (content : String) : MpiTimeStats :=
  match locateSection content mpiTimeMarker with
  | none => { task_stats := none, aggregate := none }
  | some body =>
    { task_stats := some (tableRows mpiLineStep (sectionLines body))
      aggregate := ((tableRows mpiLineStep (sectionLines body)).filter fun s =>
        decide (s.task = TaskVal.aggregate)).head? }

/-- Field part of one Aggregate Time row (after the label scan), needing at
least 6 remaining parts: `site time_ms app% mpi% count cov`. -/
def parseAggRest (lab : List String) : List String → Option AggOp
  | r0 :: r1 :: r2 :: r3 :: r4 :: r5 :: _ =>
    (pyInt r0).bind fun site =>
    (pyFloat r1).bind fun tm =>
    (pyFloat r2).bind fun ap =>
    (pyFloat r3).bind fun mp =>
    (pyInt r4).bind fun cnt =>
    (pyFloat r5).map fun cov =>
      { call_type := joinSpace lab, site := site, time_ms := tm, app_percentage := ap
        mpi_percentage := mp, count := cnt, cov := cov }
  | _ => none

/-- Parse the whitespace-split parts of one Aggregate Time row: the label is
collected by the `while not parts[idx].isdigit()` scan, the rest are the
fields. -/
def parseAggParts (parts : List String) : Option AggOp :=
  if parts.length ≥ 6 then
    parseAggRest (parts.takeWhile fun p => !pyIsDigit p)
      (parts.dropWhile fun p => !pyIsDigit p)
  else none

/-- One iteration of the Aggregate Time row loop, including the blank-line
and `Call` header guards. -/
def aggLineStep (line : String) : Option AggOp :=
  if pyStrip line ≠ "" ∧ ¬ pyStartsWith line "Call" then parseAggParts (pySplitWs line)
  else none

/-- `_extract_aggregate_time_stats`. -/
def extract_aggregate_time_stats (content : String) : AggStats :=
  match locateSection content aggTimeMarker with
  | none => { operations := [] }
  | some body => { operations := tableRows aggLineStep (sectionLines body) }

/-- Field part of one Message Size row, needing at least 5 remaining parts:
`site count total_bytes avg_bytes sent%`. -/
def parseMsgRest (lab : List String) : List String → Option MsgOp
  | r0 :: r1 :: r2 :: r3 :: r4 :: _ =>
    (pyInt r0).bind fun site =>
    (pyInt r1).bind fun cnt =>
    (pyFloat r2).bind fun tb =>
    (pyFloat r3).bind fun ab =>
    (pyFloat r4).map fun sp =>
      { call_type := joinSpace lab, site := site, count := cnt, total_bytes := tb
        avg_bytes := ab, sent_percentage := sp }
  | _ => none

/-- Parse the whitespace-split parts of one Message Size row. -/
def parseMsgParts (parts : List String) : Option MsgOp :=
  if parts.length ≥ 5 then
    parseMsgRest (parts.takeWhile fun p => !pyIsDigit p)
      (parts.dropWhile fun p => !pyIsDigit p)
  else none

/-- One iteration of the Message Size row loop. -/
def msgLineStep (line : String) : Option MsgOp :=
  if pyStrip line ≠ "" ∧ ¬ pyStartsWith line "Call" then parseMsgParts (pySplitWs line)
  else none

/-- `_extract_message_size_stats`. -/
def extract_message_size_stats (content : String) : MsgStats :=
  match locateSection content msgSizeMarker with
  | none => { operations := [] }
  | some body => { operations := tableRows msgLineStep (sectionLines body) }

/-- Field part of one Callsite row, needing at least 8 remaining parts:
`site rank count max mean min app% mpi%`, with `*` in the rank position
mapped to the aggregate-sentinel. -/
def parseCallsiteRest (lab : List String) : List String → Option CallsiteRecord
  | r0 :: r1 :: r2 :: r3 :: r4 :: r5 :: r6 :: r7 :: _ =>
    (pyInt r0).bind fun site =>
    (if r1 = "*" then some TaskVal.aggregate else (pyInt r1).map TaskVal.rank).bind fun rk =>
    (pyInt r2).bind fun cnt =>
    (pyFloat r3).bind fun mx =>
    (pyFloat r4).bind fun mean =>
    (pyFloat r5).bind fun mn =>
    (pyFloat r6).bind fun ap =>
    (pyFloat r7).map fun mp =>
      { name := joinSpace lab, site := site, rank := rk, count := cnt, max_time := mx
        mean_time := mean, min_time := mn, app_percentage := ap, mpi_percentage := mp }
  | _ => none

/-- Parse the whitespace-split parts of one Callsite row. -/
def parseCallsiteParts (parts : List String) : Option CallsiteRecord :=
  if parts.length ≥ 8 then
    parseCallsiteRest (parts.takeWhile fun p => !pyIsDigit p)
      (parts.dropWhile fun p => !pyIsDigit p)
  else none

/-- One iteration of the Callsite row loop: the line is stripped first and
skipped when empty (this section has no header-prefix guard). -/
def callsiteLineStep (line : String) : Option CallsiteRecord :=
  if pyStrip line = "" then none else parseCallsiteParts (pySplitWs (pyStrip line))

/-- `_extract_callsite_stats`. -/
def extract_callsite_stats (content : String) : CallsiteStats :=
  match locateSection content callsiteMarker with
  | none => { callsites := [] }
  | some body => { callsites := tableRows callsiteLineStep (sectionLines body) }

/-- `_extract_run_info`. -/
def extract_run_info (content : String) : RunInfo :=
  { command := (keyValueOf content "@ Command").map pyStrip
    batch_size := ((keyValueOf content "@ Command").map pyStrip).map fun cmd =>
      match findBatchSize cmd.toList with
      | some n => BatchSize.val n
      | none => BatchSize.na
    version := (keyValueOf content "@ Version").map pyStrip
    start_time := (keyValueOf content "@ Start time").map pyStrip
    stop_time := (keyValueOf content "@ Stop time").map pyStrip
    mpip_env_var := (keyValueOf content "@ MPIP env var").map pyStrip
    task_assignments := (findTaskAssignments content).map fun p => ⟨p.1, p.2⟩
    num_processes := ((findTaskAssignments content).map fun p => (⟨p.1, p.2⟩ : TaskAssignment)).length
    nodes := (((findTaskAssignments content).map fun p =>
      (⟨p.1, p.2⟩ : TaskAssignment)).map fun t => t.node).dedup
    num_nodes := ((((findTaskAssignments content).map fun p =>
      (⟨p.1, p.2⟩ : TaskAssignment)).map fun t => t.node).dedup).length }

/-- `_infer_interface_from_log`: case-insensitive substring tests of the raw
`@ MPIP env var` value against the known-token table. -/
def infer_interface_from_log (content : String) : String :=
  match keyValueOf content "@ MPIP env var" with
  | some v =>
    if strContains (lowerStr v) "mpip_tcp" then "tcp"
    else if strContains (lowerStr v) "mpip_opx" || strContains (lowerStr v) "omni" then "opx"
    else "unknown"
  | none => "unknown"

/-- The interface-type decision of `parse_file`: a truthy (non-`None`,
nonempty) caller-supplied value wins; otherwise infer from the log. -/
def chooseInterface (provided : Option String) (content : String) : String :=
  match provided with
  | some s => if s = "" then infer_interface_from_log content else s
  | none => infer_interface_from_log content

/-- In-order insert-or-update of an insertion-ordered dict. -/
def dictUpd {α : Type} (l : List (String × α)) (k : String) (f : Option α → α) :
    List (String × α) :=
  match l with
  | [] => [(k, f none)]
  | (k2, v) :: rest => if k2 = k then (k2, f (some v)) :: rest else (k2, v) :: dictUpd rest k f

/-- `operation_counts`: fold counting rows by `call_type`. -/
def opCounts (ops : List AggOp) : List (String × Nat) :=
  ops.foldl (fun acc op => dictUpd acc op.call_type fun o => o.getD 0 + 1) []

/-- `operation_times`: fold summing `time_ms` by `call_type`. -/
def opTimes (ops : List AggOp) : List (String × PyFloat) :=
  ops.foldl (fun acc op => dictUpd acc op.call_type fun o => (o.getD ⟨0, 0⟩).add op.time_ms) []

/-- `_generate_summary`. -/
def generate_summary (run_info : RunInfo) (mpi : MpiTimeStats) (agg : AggStats) : Summary :=
  { num_processes := run_info.num_processes
    num_nodes := run_info.num_nodes
    batch_size := run_info.batch_size.getD BatchSize.na
    total_mpi_percentage := mpi.aggregate.map fun r => r.mpi_percentage
    total_app_time := mpi.aggregate.map fun r => r.app_time
    total_mpi_time := mpi.aggregate.map fun r => r.mpi_time
    top_operations := if agg.operations = [] then none else some (agg.operations.take 5)
    operation_counts := if agg.operations = [] then none else some (opCounts agg.operations)
    operation_times := if agg.operations = [] then none else some (opTimes agg.operations) }

/-- `parse_file` on an already-read document (file I/O and the timestamp are
outside the model). -/
def parse_file (content : String) (provided_interface_type : Option String) : ParsedRecord :=
  { interface_type := chooseInterface provided_interface_type content
    run_info := extract_run_info content
    mpi_time_stats := extract_mpi_time_stats content
    aggregate_time_stats := extract_aggregate_time_stats content
    message_size_stats := extract_message_size_stats content
    callsite_stats := extract_callsite_stats content
    summary := generate_summary (extract_run_info content) (extract_mpi_time_stats content)
      (extract_aggregate_time_stats content) }

example : pyIsDigit "42" = true := by decide
example : pyIsDigit "1.5" = false := by decide
example : pyIsDigit "-5" = false := by decide
example : pyInt "-17" = some (-17) := by decide
example : pyInt "1.5" = none := by decide
example : pyFloat "1.5" = some ⟨15, -1⟩ := by decide
example : pyFloat "-2e3" = some ⟨-2, 3⟩ := by decide
example : pyFloat "abc" = none := by decide
example : pySplitWs "  a  bb c " = ["a", "bb", "c"] := by decide
example : pyStrip "  x y  " = "x y" := by decide
example : pyLines "a\n\nb" = ["a", "", "b"] := by decide
example : findSplit "abcd".toList "cd".toList = some (['a', 'b'], []) := by decide

/-- A realistic mpiP report used as a concrete evaluation document. -/
def exDoc : String := "@ mpiP\n@ Command : python train.py --batch-size 64 --epochs 2\n@ Version : 3.5.0\n@ MPIP env var : MPIP_TCP_ENABLED=1\n@ MPI Task Assignment : 0 node01\n@ MPI Task Assignment : 1 node01\n@ MPI Task Assignment : 2 node02\n---------------------------------------------------------------------------\n@--- MPI Time (seconds) ---------------------------------------------------\n---------------------------------------------------------------------------\nTask    AppTime    MPITime     MPI%\n   0        981       25.9     2.64\n   1        981       26.2     2.67\n   *   1.96e+03       52.1     2.65\n---------------------------------------------------------------------------\n@--- Aggregate Time (top twenty, descending, milliseconds) ----------------\n---------------------------------------------------------------------------\nCall                 Site       Time    App%    MPI%     Count      COV\nAllreduce              42   3.73e+04    1.90   71.77       191     0.00\nCustom  Op             7    1.5e+03     0.10    3.00        10     0.50\nBarrier                12        900    0.05    1.73         5     0.10\n---------------------------------------------------------------------------\n@--- Callsite Time statistics (all, milliseconds): 16 ---------------------\n---------------------------------------------------------------------------\nName              Site Rank  Count      Max     Mean      Min   App%   MPI%\nAllreduce            1    0     96     30.2     14.6    0.022   0.14   5.32\nAllreduce            1    *    191     30.2     14.2    0.022   0.14   5.38\n---------------------------------------------------------------------------\n"

/-- A document whose Aggregate Time data line contains the float-formed
token `1.5` in label position. -/
def exC1doc : String :=
  "@--- Aggregate Time (top twenty) ---\nFoo 1.5 2 3.0 4.0 5.0 6 7.0\n-----------"

/-- A document whose environment-variable value contains the substring `tcp`
but not `mpip_tcp`. -/
def exC6doc : String := "@ MPIP env var : export FI_PROVIDER=use_tcp\n"

/-- A document whose Aggregate Time data line has a label whose two tokens
are separated by TWO spaces. -/
def exC8doc : String :=
  "@--- Aggregate Time (top twenty) ---\nCustom  Op 1 2.0 3.0 4.0 5 6.0\n-----------"

/-- A document with six Aggregate Time operations where the sixth has a
larger `time_ms` than each of the first five. -/
def exC7doc : String :=
  "@--- Aggregate Time (top twenty) ---\nOpA 1 5.0 0.1 0.2 3 0.0\nOpB 1 4.0 0.1 0.2 3 0.0\nOpC 1 3.0 0.1 0.2 3 0.0\nOpD 1 2.0 0.1 0.2 3 0.0\nOpE 1 1.0 0.1 0.2 3 0.0\nOpF 1 99.0 0.1 0.2 3 0.0\n-----------"

/-- A document whose Aggregate Time section holds one well-formed row, one
row with too few trailing fields, and one row whose fields fail numeric
coercion. -/
def exC2doc : String :=
  "@--- Aggregate Time (top twenty) ---\nGood 1 2.0 3.0 4.0 5 6.0\nBadline 1 2\nAlso x y z q w\n-----------"

/-- An MPI Time section whose middle row fails task/float coercion. -/
def exC2mpiDoc : String :=
  "@--- MPI Time (seconds) ---\n0 1.0 2.0 3.0\nbad 9.9.9 2.0 3.0\n1 1.0 2.0 3.0\n-----------"

/-- A Message Size section whose second row has too few trailing fields. -/
def exC2msgDoc : String :=
  "@--- Aggregate Sent Message Size ---\nA 1 2 3.0 4.0 5.0\nB 1 2\n-----------"

/-- A Callsite section whose second row fails rank coercion (`x` is neither
an integer nor `*`). -/
def exC2callDoc : String :=
  "@--- Callsite Time statistics ---\nA 1 0 2 3.0 4.0 5.0 6.0 7.0\nB 1 x 2 3.0 4.0 5.0 6.0 7.0\n-----------"

/-- A document with an MPI Time `*` row but no Aggregate Time section. -/
def exC10mpiDoc : String :=
  "@--- MPI Time (seconds) ---\n* 1.0 2.0 3.0\n-----------"

/-- A document with Aggregate Time operations but no MPI Time section. -/
def exC10aggDoc : String :=
  "@--- Aggregate Time (top twenty) ---\nA 1 2.0 3.0 4.0 5 6.0\n-----------"

/-- Spec-side predicate: the string contains an occurrence of the
`--batch-size\s+(\d+)` pattern — literal flag, then a nonempty whitespace
run, then a nonempty digit run. -/
def FlagOccur (cs : List Char) : Prop :=
  ∃ pre ws ds post, cs = pre ++ batchFlagChars ++ ws ++ ds ++ post ∧
    ws ≠ [] ∧ (∀ c ∈ ws, c.isWhitespace = true) ∧
    ds ≠ [] ∧ (∀ c ∈ ds, c.isDigit = true)

/-- Spec-side predicate: as `FlagOccur`, additionally recording that the
digit run is maximal (the next character, if any, is not a digit) and that
its value is `n`. -/
def FlagOccurVal (cs : List Char) (n : Nat) : Prop :=
  ∃ pre ws ds post, cs = pre ++ batchFlagChars ++ ws ++ ds ++ post ∧
    ws ≠ [] ∧ (∀ c ∈ ws, c.isWhitespace = true) ∧
    ds ≠ [] ∧ (∀ c ∈ ds, c.isDigit = true) ∧
    (∀ c, post.head? = some c → c.isDigit = false) ∧ digitsVal ds = n

/-- The lowercased `@ MPIP env var` value of a document, as characters (empty
when the metadata line is absent; a present value is never empty, since the
regex group `.+` requires at least one character). -/
def envLowerChars (content : String) : List Char :=
  (lowerStr ((keyValueOf content "@ MPIP env var").getD "")).toList

example : (extract_run_info exDoc).command = some "python train.py --batch-size 64 --epochs 2" := by decide
example : (extract_run_info exDoc).batch_size = some (BatchSize.val 64) := by decide
example : (extract_run_info exDoc).num_processes = 3 := by decide
example : (extract_run_info exDoc).num_nodes = 2 := by decide
example : (extract_run_info exDoc).task_assignments =
    [⟨0, "node01"⟩, ⟨1, "node01"⟩, ⟨2, "node02"⟩] := by decide
example : (extract_mpi_time_stats exDoc).task_stats = some
    [⟨TaskVal.rank 0, ⟨981, 0⟩, ⟨259, -1⟩, ⟨264, -2⟩⟩,
     ⟨TaskVal.rank 1, ⟨981, 0⟩, ⟨262, -1⟩, ⟨267, -2⟩⟩,
     ⟨TaskVal.aggregate, ⟨196, 1⟩, ⟨521, -1⟩, ⟨265, -2⟩⟩] := by decide
example : (extract_mpi_time_stats exDoc).aggregate = some
    ⟨TaskVal.aggregate, ⟨196, 1⟩, ⟨521, -1⟩, ⟨265, -2⟩⟩ := by decide
example : (extract_aggregate_time_stats exDoc).operations =
    [⟨"Allreduce", 42, ⟨373, 2⟩, ⟨190, -2⟩, ⟨7177, -2⟩, 191, ⟨0, -2⟩⟩,
     ⟨"Custom Op", 7, ⟨15, 2⟩, ⟨10, -2⟩, ⟨300, -2⟩, 10, ⟨50, -2⟩⟩,
     ⟨"Barrier", 12, ⟨900, 0⟩, ⟨5, -2⟩, ⟨173, -2⟩, 5, ⟨10, -2⟩⟩] := by decide
example : (extract_callsite_stats exDoc).callsites =
    [⟨"Allreduce", 1, TaskVal.rank 0, 96, ⟨302, -1⟩, ⟨146, -1⟩, ⟨22, -3⟩, ⟨14, -2⟩, ⟨532, -2⟩⟩,
     ⟨"Allreduce", 1, TaskVal.aggregate, 191, ⟨302, -1⟩, ⟨142, -1⟩, ⟨22, -3⟩, ⟨14, -2⟩, ⟨538, -2⟩⟩] := by decide
example : infer_interface_from_log exDoc = "tcp" := by decide
example : (parse_file exDoc none).summary.total_mpi_percentage = some ⟨265, -2⟩ := by decide
example : (parse_file exDoc (some "opx")).interface_type = "opx" := by decide

/-- C1 counterexample: in the Aggregate Time extractor the label scan does
NOT stop at the first numeric-like token.  The token `1.5` is float-parseable
(and not integer-parseable), i.e. numeric-like in the claim's sense, yet it
is absorbed into the extracted label, which comes out as `"Foo 1.5"` instead
of `"Foo"`: the scan only stops at all-digit tokens. -/
theorem C1_counterexample :
    (pyFloat "1.5").isSome = true ∧ pyInt "1.5" = none ∧
    (extract_aggregate_time_stats exC1doc).operations.map (fun op => op.call_type) =
      ["Foo 1.5"] := by decide

/-- C6 counterexample: with no caller-supplied label, an environment-variable
value that contains the substring `tcp` (here `use_tcp`) but not `mpip_tcp`
is classified `"unknown"`, not `"tcp"` as the claim states. -/
theorem C6_counterexample :
    strContains (lowerStr "export FI_PROVIDER=use_tcp") "tcp" = true ∧
    keyValueOf exC6doc "@ MPIP env var" = some "export FI_PROVIDER=use_tcp" ∧
    chooseInterface none exC6doc = "unknown" := by decide

/-- C8 counterexample: a data line whose label reads `Custom  Op` (two
spaces) in the document yields the extracted label `"Custom Op"` (one
space): the original spacing of a multi-word name is not reconstructed
exactly. -/
theorem C8_counterexample :
    strContains exC8doc "Custom  Op" = true ∧
    (extract_aggregate_time_stats exC8doc).operations.map (fun op => op.call_type) =
      ["Custom Op"] ∧
    "Custom Op" ≠ "Custom  Op" := by decide

/-- C4: for every input document, the extracted RunInfo satisfies
`num_processes = len(task_assignments)` and `num_nodes` = the number of
distinct node names among the task assignments (including the case of zero
assignment lines). -/
theorem C4_run_info_invariants (content : String) :
    (extract_run_info content).num_processes =
      (extract_run_info content).task_assignments.length ∧
    (extract_run_info content).num_nodes =
      ((extract_run_info content).task_assignments.map fun t => t.node).toFinset.card := by
  refine ⟨rfl, ?_⟩
  simp only [extract_run_info]
  rw [List.card_toFinset]

/-- C7: whenever the Aggregate Time operations sequence is nonempty, the
Summary's `top_operations` is exactly the first 5 entries of that sequence in
original order (a plain truncation, no re-sorting). -/
theorem C7_top_operations (content : String) (provided : Option String)
    (h : (parse_file content provided).aggregate_time_stats.operations ≠ []) :
    (parse_file content provided).summary.top_operations =
      some ((parse_file content provided).aggregate_time_stats.operations.take 5) := by
  have h' : (extract_aggregate_time_stats content).operations ≠ [] := h
  simp only [parse_file, generate_summary]
  rw [if_neg h']

/-- C7 witness: on a document with six operations whose sixth has the
largest `time_ms`, `top_operations` is still the first five in source
order. -/
theorem C7_top_operations_witness :
    (parse_file exC7doc none).summary.top_operations =
      some ((parse_file exC7doc none).aggregate_time_stats.operations.take 5) ∧
    ((parse_file exC7doc none).aggregate_time_stats.operations.drop 5).all
      (fun op6 => ((parse_file exC7doc none).aggregate_time_stats.operations.take 5).all
        fun op => PyFloat.lt op.time_ms op6.time_ms) = true ∧
    (parse_file exC7doc none).aggregate_time_stats.operations.length = 6 :=
  ⟨C7_top_operations exC7doc none (by decide), by decide, by decide⟩

/-- C10: when the Aggregate Time operations sequence is empty (section
absent or every row skipped) the Summary has no `top_operations`,
`operation_counts` or `operation_times` keys; independently, when the MPI
Time aggregate row is absent the Summary has no `total_mpi_percentage`,
`total_app_time` or `total_mpi_time` keys (absent, not zero).  The two
conditionals do not require each other. -/
theorem C10_summary_absent_fields (content : String) (provided : Option String) :
    ((parse_file content provided).aggregate_time_stats.operations = [] →
      (parse_file content provided).summary.top_operations = none ∧
      (parse_file content provided).summary.operation_counts = none ∧
      (parse_file content provided).summary.operation_times = none) ∧
    ((parse_file content provided).mpi_time_stats.aggregate = none →
      (parse_file content provided).summary.total_mpi_percentage = none ∧
      (parse_file content provided).summary.total_app_time = none ∧
      (parse_file content provided).summary.total_mpi_time = none) := by
  constructor
  · intro hAgg
    have hAgg' : (extract_aggregate_time_stats content).operations = [] := hAgg
    refine ⟨?_, ?_, ?_⟩ <;>
      simp only [parse_file, generate_summary, hAgg', if_pos]
  · intro hMpi
    have hMpi' : (extract_mpi_time_stats content).aggregate = none := hMpi
    refine ⟨?_, ?_, ?_⟩ <;>
      simp only [parse_file, generate_summary, hMpi', Option.map_none']

/-- C10 witness: the operation keys are absent on a document that HAS an MPI
`*` aggregate row but no Aggregate Time section, and the total keys are
absent on a document that HAS Aggregate Time operations but no MPI Time
section — each conditional fires on its own. -/
theorem C10_summary_absent_fields_witness :
    ((parse_file exC10mpiDoc none).summary.top_operations = none ∧
      (parse_file exC10mpiDoc none).summary.operation_counts = none ∧
      (parse_file exC10mpiDoc none).summary.operation_times = none) ∧
    (parse_file exC10mpiDoc none).mpi_time_stats.aggregate ≠ none ∧
    ((parse_file exC10aggDoc none).summary.total_mpi_percentage = none ∧
      (parse_file exC10aggDoc none).summary.total_app_time = none ∧
      (parse_file exC10aggDoc none).summary.total_mpi_time = none) ∧
    (parse_file exC10aggDoc none).aggregate_time_stats.operations ≠ [] :=
  ⟨(C10_summary_absent_fields exC10mpiDoc none).1 (by decide), by decide,
   (C10_summary_absent_fields exC10aggDoc none).2 (by decide), by decide⟩

/-- A field list shorter than 6 never yields an Aggregate Time row. -/
theorem parseAggRest_eq_none (lab rest : List String) (h : rest.length < 6) :
    parseAggRest lab rest = none := by
  rcases rest with _ | ⟨a, _ | ⟨b, _ | ⟨c, _ | ⟨d, _ | ⟨e, _ | ⟨f, tl⟩⟩⟩⟩⟩⟩ <;>
    first
    | rfl
    | (simp only [List.length_cons] at h; omega)

/-- A field list shorter than 5 never yields a Message Size row. -/
theorem parseMsgRest_eq_none (lab rest : List String) (h : rest.length < 5) :
    parseMsgRest lab rest = none := by
  rcases rest with _ | ⟨a, _ | ⟨b, _ | ⟨c, _ | ⟨d, _ | ⟨e, tl⟩⟩⟩⟩⟩ <;>
    first
    | rfl
    | (simp only [List.length_cons] at h; omega)

/-- A field list shorter than 8 never yields a Callsite row. -/
theorem parseCallsiteRest_eq_none (lab rest : List String) (h : rest.length < 8) :
    parseCallsiteRest lab rest = none := by
  rcases rest with
    _ | ⟨a, _ | ⟨b, _ | ⟨c, _ | ⟨d, _ | ⟨e, _ | ⟨f, _ | ⟨g, _ | ⟨i, tl⟩⟩⟩⟩⟩⟩⟩⟩ <;>
    first
    | rfl
    | (simp only [List.length_cons] at h; omega)

/-- A token list shorter than 4 never yields an MPI Time row. -/
theorem parseMpiParts_eq_none (parts : List String) (h : parts.length < 4) :
    parseMpiParts parts = none := by
  rcases parts with _ | ⟨a, _ | ⟨b, _ | ⟨c, _ | ⟨d, tl⟩⟩⟩⟩ <;>
    first
    | rfl
    | (simp only [List.length_cons] at h; omega)

/-- Fewer than 6 trailing fields after the label scan: the Aggregate Time
row loop skips the line. -/
theorem aggLineStep_eq_none_of_short (l : String)
    (h : ((pySplitWs l).dropWhile fun p => !pyIsDigit p).length < 6) :
    aggLineStep l = none := by
  unfold aggLineStep
  split
  · unfold parseAggParts
    split
    · exact parseAggRest_eq_none _ _ h
    · rfl
  · rfl

/-- Fewer than 5 trailing fields: the Message Size row loop skips the
line. -/
theorem msgLineStep_eq_none_of_short (l : String)
    (h : ((pySplitWs l).dropWhile fun p => !pyIsDigit p).length < 5) :
    msgLineStep l = none := by
  unfold msgLineStep
  split
  · unfold parseMsgParts
    split
    · exact parseMsgRest_eq_none _ _ h
    · rfl
  · rfl

/-- Fewer than 8 trailing fields: the Callsite row loop skips the line. -/
theorem callsiteLineStep_eq_none_of_short (l : String)
    (h : ((pySplitWs (pyStrip l)).dropWhile fun p => !pyIsDigit p).length < 8) :
    callsiteLineStep l = none := by
  unfold callsiteLineStep
  split
  · rfl
  · unfold parseCallsiteParts
    split
    · exact parseCallsiteRest_eq_none _ _ h
    · rfl

/-- Fewer than 4 tokens: the MPI Time row loop skips the line. -/
theorem mpiLineStep_eq_none_of_short (l : String) (h : (pySplitWs l).length < 4) :
    mpiLineStep l = none := by
  unfold mpiLineStep
  split
  · exact parseMpiParts_eq_none _ h
  · rfl

/-- A skipped line contributes nothing, and the lines around it are still
processed. -/
theorem tableRows_skip {α : Type} (step : String → Option α) (pre post : List String)
    (l : String) (h : step l = none) :
    tableRows step (pre ++ l :: post) = tableRows step (pre ++ post) := by
  unfold tableRows
  rw [List.filterMap_append, List.filterMap_append, List.filterMap_cons_none h]

/-- Collapsing a bind whose continuation always fails. -/
theorem bind_fun_none {α β : Type} (x : Option α) :
    (x.bind fun _ => (none : Option β)) = none := by
  cases x <;> rfl

/-- Any failing typed-field coercion rejects an MPI Time row (the task field
fails when it is neither `*` nor an integer). -/
theorem parseMpiParts_none_of_failure (p0 p1 p2 p3 : String) (tl : List String)
    (hfail : (p0 ≠ "*" ∧ pyInt p0 = none) ∨ pyFloat p1 = none ∨ pyFloat p2 = none ∨
      pyFloat p3 = none) :
    parseMpiParts (p0 :: p1 :: p2 :: p3 :: tl) = none := by
  rcases hfail with ⟨hne, h⟩ | h | h | h
  · simp [parseMpiParts, hne, h, bind_fun_none]
  · simp [parseMpiParts, h, bind_fun_none]
  · simp [parseMpiParts, h, bind_fun_none]
  · simp [parseMpiParts, h, bind_fun_none]

/-- Any failing typed-field coercion rejects an Aggregate Time row. -/
theorem parseAggRest_none_of_failure (lab : List String) (r0 r1 r2 r3 r4 r5 : String)
    (tl : List String)
    (hfail : pyInt r0 = none ∨ pyFloat r1 = none ∨ pyFloat r2 = none ∨
      pyFloat r3 = none ∨ pyInt r4 = none ∨ pyFloat r5 = none) :
    parseAggRest lab (r0 :: r1 :: r2 :: r3 :: r4 :: r5 :: tl) = none := by
  rcases hfail with h | h | h | h | h | h <;> simp [parseAggRest, h, bind_fun_none]

/-- Any failing typed-field coercion rejects a Message Size row. -/
theorem parseMsgRest_none_of_failure (lab : List String) (r0 r1 r2 r3 r4 : String)
    (tl : List String)
    (hfail : pyInt r0 = none ∨ pyInt r1 = none ∨ pyFloat r2 = none ∨
      pyFloat r3 = none ∨ pyFloat r4 = none) :
    parseMsgRest lab (r0 :: r1 :: r2 :: r3 :: r4 :: tl) = none := by
  rcases hfail with h | h | h | h | h <;> simp [parseMsgRest, h, bind_fun_none]

/-- Any failing typed-field coercion rejects a Callsite row (the rank field
fails when it is neither `*` nor an integer). -/
theorem parseCallsiteRest_none_of_failure (lab : List String)
    (r0 r1 r2 r3 r4 r5 r6 r7 : String) (tl : List String)
    (hfail : pyInt r0 = none ∨ (r1 ≠ "*" ∧ pyInt r1 = none) ∨ pyInt r2 = none ∨
      pyFloat r3 = none ∨ pyFloat r4 = none ∨ pyFloat r5 = none ∨ pyFloat r6 = none ∨
      pyFloat r7 = none) :
    parseCallsiteRest lab (r0 :: r1 :: r2 :: r3 :: r4 :: r5 :: r6 :: r7 :: tl) = none := by
  rcases hfail with h | ⟨hne, h⟩ | h | h | h | h | h | h
  · simp [parseCallsiteRest, h, bind_fun_none]
  · simp [parseCallsiteRest, hne, h, bind_fun_none]
  · simp [parseCallsiteRest, h, bind_fun_none]
  · simp [parseCallsiteRest, h, bind_fun_none]
  · simp [parseCallsiteRest, h, bind_fun_none]
  · simp [parseCallsiteRest, h, bind_fun_none]
  · simp [parseCallsiteRest, h, bind_fun_none]
  · simp [parseCallsiteRest, h, bind_fun_none]

/-- C2: for every line of a located section, in each of the four table
extractors: a line the row step rejects contributes no row to that section's
output while the lines before and after it are still processed (first four
conjuncts); a line with fewer trailing fields than the section's arity
(4 / 6 / 5 / 8) is rejected by the row step (next four); and a line whose
trailing fields decompose but where any typed-field coercion fails is
rejected by the row step (last four).  No error is possible anywhere: every
function involved is total. -/
theorem C2_bad_line_skipped (content body : String) (pre post : List String) (l : String) :
    (locateSection content mpiTimeMarker = some body →
      sectionLines body = pre ++ l :: post → mpiLineStep l = none →
      (extract_mpi_time_stats content).task_stats =
        some (tableRows mpiLineStep (pre ++ post))) ∧
    (locateSection content aggTimeMarker = some body →
      sectionLines body = pre ++ l :: post → aggLineStep l = none →
      (extract_aggregate_time_stats content).operations =
        tableRows aggLineStep (pre ++ post)) ∧
    (locateSection content msgSizeMarker = some body →
      sectionLines body = pre ++ l :: post → msgLineStep l = none →
      (extract_message_size_stats content).operations =
        tableRows msgLineStep (pre ++ post)) ∧
    (locateSection content callsiteMarker = some body →
      sectionLines body = pre ++ l :: post → callsiteLineStep l = none →
      (extract_callsite_stats content).callsites =
        tableRows callsiteLineStep (pre ++ post)) ∧
    ((pySplitWs l).length < 4 → mpiLineStep l = none) ∧
    (((pySplitWs l).dropWhile fun p => !pyIsDigit p).length < 6 → aggLineStep l = none) ∧
    (((pySplitWs l).dropWhile fun p => !pyIsDigit p).length < 5 → msgLineStep l = none) ∧
    (((pySplitWs (pyStrip l)).dropWhile fun p => !pyIsDigit p).length < 8 →
      callsiteLineStep l = none) ∧
    (∀ p0 p1 p2 p3 tl, pySplitWs l = p0 :: p1 :: p2 :: p3 :: tl →
      ((p0 ≠ "*" ∧ pyInt p0 = none) ∨ pyFloat p1 = none ∨ pyFloat p2 = none ∨
        pyFloat p3 = none) →
      mpiLineStep l = none) ∧
    (∀ r0 r1 r2 r3 r4 r5 tl,
      (pySplitWs l).dropWhile (fun p => !pyIsDigit p) =
        r0 :: r1 :: r2 :: r3 :: r4 :: r5 :: tl →
      (pyInt r0 = none ∨ pyFloat r1 = none ∨ pyFloat r2 = none ∨ pyFloat r3 = none ∨
        pyInt r4 = none ∨ pyFloat r5 = none) →
      aggLineStep l = none) ∧
    (∀ r0 r1 r2 r3 r4 tl,
      (pySplitWs l).dropWhile (fun p => !pyIsDigit p) = r0 :: r1 :: r2 :: r3 :: r4 :: tl →
      (pyInt r0 = none ∨ pyInt r1 = none ∨ pyFloat r2 = none ∨ pyFloat r3 = none ∨
        pyFloat r4 = none) →
      msgLineStep l = none) ∧
    (∀ r0 r1 r2 r3 r4 r5 r6 r7 tl,
      (pySplitWs (pyStrip l)).dropWhile (fun p => !pyIsDigit p) =
        r0 :: r1 :: r2 :: r3 :: r4 :: r5 :: r6 :: r7 :: tl →
      (pyInt r0 = none ∨ (r1 ≠ "*" ∧ pyInt r1 = none) ∨ pyInt r2 = none ∨
        pyFloat r3 = none ∨ pyFloat r4 = none ∨ pyFloat r5 = none ∨ pyFloat r6 = none ∨
        pyFloat r7 = none) →
      callsiteLineStep l = none) := by
  refine ⟨fun hloc hlines hskip => ?_, fun hloc hlines hskip => ?_,
    fun hloc hlines hskip => ?_, fun hloc hlines hskip => ?_,
    mpiLineStep_eq_none_of_short l, aggLineStep_eq_none_of_short l,
    msgLineStep_eq_none_of_short l, callsiteLineStep_eq_none_of_short l,
    fun p0 p1 p2 p3 tl hps hfail => ?_,
    fun r0 r1 r2 r3 r4 r5 tl hr hfail => ?_,
    fun r0 r1 r2 r3 r4 tl hr hfail => ?_,
    fun r0 r1 r2 r3 r4 r5 r6 r7 tl hr hfail => ?_⟩
  · unfold extract_mpi_time_stats
    rw [hloc]
    simp only
    rw [hlines, tableRows_skip _ _ _ _ hskip]
  · unfold extract_aggregate_time_stats
    rw [hloc]
    simp only
    rw [hlines, tableRows_skip _ _ _ _ hskip]
  · unfold extract_message_size_stats
    rw [hloc]
    simp only
    rw [hlines, tableRows_skip _ _ _ _ hskip]
  · unfold extract_callsite_stats
    rw [hloc]
    simp only
    rw [hlines, tableRows_skip _ _ _ _ hskip]
  · unfold mpiLineStep
    split
    · rw [hps]
      exact parseMpiParts_none_of_failure p0 p1 p2 p3 tl hfail
    · rfl
  · unfold aggLineStep
    split
    · unfold parseAggParts
      split
      · rw [hr]
        exact parseAggRest_none_of_failure _ r0 r1 r2 r3 r4 r5 tl hfail
      · rfl
    · rfl
  · unfold msgLineStep
    split
    · unfold parseMsgParts
      split
      · rw [hr]
        exact parseMsgRest_none_of_failure _ r0 r1 r2 r3 r4 tl hfail
      · rfl
    · rfl
  · unfold callsiteLineStep
    split
    · rfl
    · unfold parseCallsiteParts
      split
      · rw [hr]
        exact parseCallsiteRest_none_of_failure _ r0 r1 r2 r3 r4 r5 r6 r7 tl hfail
      · rfl

/-- C2 witness: each extractor skips its bad middle/last row and still
processes the neighbours — an MPI Time row whose task fails coercion, an
Aggregate row with too few fields, a Message Size row with too few fields
and a Callsite row whose rank fails coercion; the last two conjuncts
exercise the arity and coercion implications directly. -/
theorem C2_bad_line_skipped_witness :
    (extract_mpi_time_stats exC2mpiDoc).task_stats =
      some (tableRows mpiLineStep ["0 1.0 2.0 3.0", "1 1.0 2.0 3.0"]) ∧
    (extract_aggregate_time_stats exC2doc).operations =
      tableRows aggLineStep ["Good 1 2.0 3.0 4.0 5 6.0", "Also x y z q w"] ∧
    (extract_message_size_stats exC2msgDoc).operations =
      tableRows msgLineStep ["A 1 2 3.0 4.0 5.0"] ∧
    (extract_callsite_stats exC2callDoc).callsites =
      tableRows callsiteLineStep ["A 1 0 2 3.0 4.0 5.0 6.0 7.0"] ∧
    msgLineStep "B 1 2" = none ∧
    mpiLineStep "bad 9.9.9 2.0 3.0" = none :=
  ⟨(C2_bad_line_skipped exC2mpiDoc "0 1.0 2.0 3.0\nbad 9.9.9 2.0 3.0\n1 1.0 2.0 3.0"
      ["0 1.0 2.0 3.0"] ["1 1.0 2.0 3.0"] "bad 9.9.9 2.0 3.0").1
      (by decide) (by decide) (by decide),
   (C2_bad_line_skipped exC2doc "Good 1 2.0 3.0 4.0 5 6.0\nBadline 1 2\nAlso x y z q w"
      ["Good 1 2.0 3.0 4.0 5 6.0"] ["Also x y z q w"] "Badline 1 2").2.1
      (by decide) (by decide) (by decide),
   (C2_bad_line_skipped exC2msgDoc "A 1 2 3.0 4.0 5.0\nB 1 2" ["A 1 2 3.0 4.0 5.0"] []
      "B 1 2").2.2.1 (by decide) (by decide) (by decide),
   (C2_bad_line_skipped exC2callDoc
      "A 1 0 2 3.0 4.0 5.0 6.0 7.0\nB 1 x 2 3.0 4.0 5.0 6.0 7.0"
      ["A 1 0 2 3.0 4.0 5.0 6.0 7.0"] [] "B 1 x 2 3.0 4.0 5.0 6.0 7.0").2.2.2.1
      (by decide) (by decide) (by decide),
   (C2_bad_line_skipped "" "" [] [] "B 1 2").2.2.2.2.2.2.1 (by decide),
   (C2_bad_line_skipped "" "" [] [] "bad 9.9.9 2.0 3.0").2.2.2.2.2.2.2.2.1
      "bad" "9.9.9" "2.0" "3.0" [] (by decide) (Or.inl ⟨by decide, by decide⟩)⟩

/-- When the pattern does not occur in the text, neither does a section
match starting anywhere. -/
theorem locateFrom_eq_none (marker : List Char) (cs : List Char)
    (h : findSplit cs marker = none) : locateFrom marker cs = none := by
  induction cs with
  | nil => rfl
  | cons c rest ih =>
    by_cases hp : marker.isPrefixOf (c :: rest) = true
    · simp only [findSplit, if_pos hp] at h
      exact Option.noConfusion h
    · cases hfs : findSplit rest marker with
      | some pr =>
        simp only [findSplit, if_neg hp, hfs] at h
        exact Option.noConfusion h
      | none =>
        simp only [locateFrom, if_neg hp]
        exact ih hfs

/-- An absent marker makes the Section Locator return `none`. -/
theorem locateSection_eq_none (content marker : String)
    (h : strContains content marker = false) : locateSection content marker = none := by
  unfold locateSection
  rw [locateFrom_eq_none]
  · rfl
  · unfold strContains at h
    cases hfs : findSplit content.toList marker.toList with
    | none => rfl
    | some pr => rw [hfs] at h; simp at h

/-- C3: for each of the four table extractors, a document in which that
section's header marker does not occur yields the extractor's
empty-collection zero value (the empty dict for MPI-Time, an empty list for
the other three), raises no error, and the Summary fields that depend on
that section are absent rather than zero. -/
theorem C3_absent_section (content : String) (provided : Option String) :
    (strContains content mpiTimeMarker = false →
      extract_mpi_time_stats content = { task_stats := none, aggregate := none } ∧
      (parse_file content provided).summary.total_mpi_percentage = none ∧
      (parse_file content provided).summary.total_app_time = none ∧
      (parse_file content provided).summary.total_mpi_time = none) ∧
    (strContains content aggTimeMarker = false →
      extract_aggregate_time_stats content = { operations := [] } ∧
      (parse_file content provided).summary.top_operations = none ∧
      (parse_file content provided).summary.operation_counts = none ∧
      (parse_file content provided).summary.operation_times = none) ∧
    (strContains content msgSizeMarker = false →
      extract_message_size_stats content = { operations := [] }) ∧
    (strContains content callsiteMarker = false →
      extract_callsite_stats content = { callsites := [] }) := by
  refine ⟨fun h1 => ?_, fun h2 => ?_, fun h3 => ?_, fun h4 => ?_⟩
  · have hm : extract_mpi_time_stats content = { task_stats := none, aggregate := none } := by
      unfold extract_mpi_time_stats
      rw [locateSection_eq_none content mpiTimeMarker h1]
    refine ⟨hm, ?_, ?_, ?_⟩ <;>
      simp only [parse_file, generate_summary, hm, Option.map_none']
  · have hm : extract_aggregate_time_stats content = { operations := [] } := by
      unfold extract_aggregate_time_stats
      rw [locateSection_eq_none content aggTimeMarker h2]
    refine ⟨hm, ?_, ?_, ?_⟩ <;> simp only [parse_file, generate_summary, hm, if_pos]
  · unfold extract_message_size_stats
    rw [locateSection_eq_none content msgSizeMarker h3]
  · unfold extract_callsite_stats
    rw [locateSection_eq_none content callsiteMarker h4]

/-- C3 witness: a document containing none of the four markers. -/
theorem C3_absent_section_witness :
    (extract_mpi_time_stats "@ Command : x\n" = { task_stats := none, aggregate := none } ∧
      (parse_file "@ Command : x\n" none).summary.total_mpi_percentage = none ∧
      (parse_file "@ Command : x\n" none).summary.total_app_time = none ∧
      (parse_file "@ Command : x\n" none).summary.total_mpi_time = none) ∧
    (extract_aggregate_time_stats "@ Command : x\n" = { operations := [] } ∧
      (parse_file "@ Command : x\n" none).summary.top_operations = none ∧
      (parse_file "@ Command : x\n" none).summary.operation_counts = none ∧
      (parse_file "@ Command : x\n" none).summary.operation_times = none) ∧
    extract_message_size_stats "@ Command : x\n" = { operations := [] } ∧
    extract_callsite_stats "@ Command : x\n" = { callsites := [] } :=
  ⟨(C3_absent_section "@ Command : x\n" none).1 (by decide),
   (C3_absent_section "@ Command : x\n" none).2.1 (by decide),
   (C3_absent_section "@ Command : x\n" none).2.2.1 (by decide),
   (C3_absent_section "@ Command : x\n" none).2.2.2 (by decide)⟩

/-- The head of a `dropWhile` result fails the predicate. -/
theorem dropWhile_head_not {α : Type} (p : α → Bool) (l : List α) (c : α)
    (h : (l.dropWhile p).head? = some c) : p c = false := by
  induction l with
  | nil => simp [List.dropWhile] at h
  | cons a t ih =>
    by_cases hp : p a = true
    · rw [List.dropWhile_cons_of_pos hp] at h
      exact ih h
    · rw [List.dropWhile_cons_of_neg hp] at h
      simp only [List.head?_cons, Option.some.injEq] at h
      subst h
      exact Bool.not_eq_true _ ▸ Bool.of_not_eq_true hp

/-- An MPI Time row built from a `*` leading token carries the
aggregate-sentinel. -/
theorem parseMpiParts_star (p0 p1 p2 p3 : String) (tl : List String) (row : TimeStatRow)
    (h : parseMpiParts (p0 :: p1 :: p2 :: p3 :: tl) = some row) (hstar : p0 = "*") :
    row.task = TaskVal.aggregate := by
  subst hstar
  simp only [parseMpiParts] at h
  cases h1 : pyFloat p1 <;> cases h2 : pyFloat p2 <;> cases h3 : pyFloat p3 <;>
    simp_all
  rw [← h]

/-- A Callsite row built from a `*` rank token carries the
aggregate-sentinel. -/
theorem parseCallsiteRest_star (lab : List String) (r0 r1 r2 r3 r4 r5 r6 r7 : String)
    (tl : List String) (recd : CallsiteRecord)
    (h : parseCallsiteRest lab (r0 :: r1 :: r2 :: r3 :: r4 :: r5 :: r6 :: r7 :: tl) =
      some recd)
    (hstar : r1 = "*") : recd.rank = TaskVal.aggregate := by
  subst hstar
  simp only [parseCallsiteRest] at h
  cases h0 : pyInt r0 <;> cases h2 : pyInt r2 <;> cases h3 : pyFloat r3 <;>
    cases h4 : pyFloat r4 <;> cases h5 : pyFloat r5 <;> cases h6 : pyFloat r6 <;>
    cases h7 : pyFloat r7 <;> simp_all
  rw [← h]

/-- C5: the `*` marker in the task position of an MPI Time row and in the
rank position of a Callsite row maps to the aggregate-sentinel, which is
distinct from every integer rank; and an MPI Time row carrying the sentinel
is additionally exposed under the `aggregate` key. -/
theorem C5_aggregate_sentinel :
    (∀ n : Int, TaskVal.rank n ≠ TaskVal.aggregate) ∧
    (∀ line row, mpiLineStep line = some row → (pySplitWs line).head? = some "*" →
      row.task = TaskVal.aggregate) ∧
    (∀ line recd, callsiteLineStep line = some recd →
      ((pySplitWs (pyStrip line)).dropWhile fun p => !pyIsDigit p)[1]? = some "*" →
      recd.rank = TaskVal.aggregate) ∧
    (∀ content row, row ∈ ((extract_mpi_time_stats content).task_stats.getD []) →
      row.task = TaskVal.aggregate →
      ∃ r, (extract_mpi_time_stats content).aggregate = some r ∧
        r.task = TaskVal.aggregate) := by
  refine ⟨fun n h => TaskVal.noConfusion h, fun line row h hstar => ?_,
    fun line recd h hidx => ?_, fun content row hmem htask => ?_⟩
  · unfold mpiLineStep at h
    split at h
    · rcases hps : pySplitWs line with _ | ⟨p0, _ | ⟨p1, _ | ⟨p2, _ | ⟨p3, tl⟩⟩⟩⟩ <;>
        rw [hps] at hstar h
      · exact absurd hstar (by simp)
      · rw [parseMpiParts_eq_none _ (by simp)] at h
        exact Option.noConfusion h
      · rw [parseMpiParts_eq_none _ (by simp)] at h
        exact Option.noConfusion h
      · rw [parseMpiParts_eq_none _ (by simp)] at h
        exact Option.noConfusion h
      · simp only [List.head?_cons, Option.some.injEq] at hstar
        exact parseMpiParts_star p0 p1 p2 p3 tl row h hstar
    · exact Option.noConfusion h
  · unfold callsiteLineStep at h
    split at h
    · exact Option.noConfusion h
    · unfold parseCallsiteParts at h
      split at h
      · rcases hR : (pySplitWs (pyStrip line)).dropWhile fun p => !pyIsDigit p with
          _ | ⟨r0, _ | ⟨r1, _ | ⟨r2, _ | ⟨r3, _ | ⟨r4, _ | ⟨r5, _ | ⟨r6, _ | ⟨r7, tl⟩⟩⟩⟩⟩⟩⟩⟩ <;>
          rw [hR] at h hidx
        · exact Option.noConfusion ((parseCallsiteRest_eq_none _ _ (by simp)).symm.trans h)
        · exact Option.noConfusion ((parseCallsiteRest_eq_none _ _ (by simp)).symm.trans h)
        · exact Option.noConfusion ((parseCallsiteRest_eq_none _ _ (by simp)).symm.trans h)
        · exact Option.noConfusion ((parseCallsiteRest_eq_none _ _ (by simp)).symm.trans h)
        · exact Option.noConfusion ((parseCallsiteRest_eq_none _ _ (by simp)).symm.trans h)
        · exact Option.noConfusion ((parseCallsiteRest_eq_none _ _ (by simp)).symm.trans h)
        · exact Option.noConfusion ((parseCallsiteRest_eq_none _ _ (by simp)).symm.trans h)
        · exact Option.noConfusion ((parseCallsiteRest_eq_none _ _ (by simp)).symm.trans h)
        · simp only [List.getElem?_cons_succ, List.getElem?_cons_zero,
            Option.some.injEq] at hidx
          exact parseCallsiteRest_star _ r0 r1 r2 r3 r4 r5 r6 r7 tl recd h hidx
      · exact Option.noConfusion h
  · unfold extract_mpi_time_stats at hmem ⊢
    cases hloc : locateSection content mpiTimeMarker with
    | none =>
      rw [hloc] at hmem
      simp at hmem
    | some body =>
      rw [hloc] at hmem
      dsimp only at hmem ⊢
      rw [Option.getD_some] at hmem
      have hfil : row ∈ (tableRows mpiLineStep (sectionLines body)).filter
          (fun s => decide (s.task = TaskVal.aggregate)) :=
        List.mem_filter.mpr ⟨hmem, by simp [htask]⟩
      cases hfl : (tableRows mpiLineStep (sectionLines body)).filter
          (fun s => decide (s.task = TaskVal.aggregate)) with
      | nil =>
        rw [hfl] at hfil
        exact absurd hfil (List.not_mem_nil row)
      | cons r tl =>
        refine ⟨r, ?_, ?_⟩
        · rfl
        · have hrmem : r ∈ (tableRows mpiLineStep (sectionLines body)).filter
              (fun s => decide (s.task = TaskVal.aggregate)) := by
            rw [hfl]
            exact List.mem_cons_self r tl
          simpa using (List.mem_filter.mp hrmem).2

/-- C5 witness: concrete `*` rows from the realistic document. -/
theorem C5_aggregate_sentinel_witness :
    TaskVal.rank 7 ≠ TaskVal.aggregate ∧
    ((⟨TaskVal.aggregate, ⟨196, 1⟩, ⟨521, -1⟩, ⟨265, -2⟩⟩ : TimeStatRow)).task =
      TaskVal.aggregate ∧
    (∃ r, (extract_mpi_time_stats exDoc).aggregate = some r ∧
      r.task = TaskVal.aggregate) :=
  ⟨C5_aggregate_sentinel.1 7,
   C5_aggregate_sentinel.2.1 "   *   1.96e+03       52.1     2.65"
     ⟨TaskVal.aggregate, ⟨196, 1⟩, ⟨521, -1⟩, ⟨265, -2⟩⟩ (by decide) (by decide),
   C5_aggregate_sentinel.2.2.2 exDoc
     ⟨TaskVal.aggregate, ⟨196, 1⟩, ⟨521, -1⟩, ⟨265, -2⟩⟩ (by decide) (by decide)⟩

/-- Boolean prefix test, characterized as list decomposition. -/
theorem isPrefixOf_iff_append {α : Type} [DecidableEq α] (l₁ l₂ : List α) :
    l₁.isPrefixOf l₂ = true ↔ ∃ t, l₂ = l₁ ++ t := by
  induction l₁ generalizing l₂ with
  | nil => simp [List.isPrefixOf]
  | cons a t ih =>
    cases l₂ with
    | nil => simp [List.isPrefixOf]
    | cons b u =>
      simp only [List.isPrefixOf, Bool.and_eq_true, beq_iff_eq, ih, List.cons_append,
        List.cons.injEq]
      constructor
      · rintro ⟨hab, s, hs⟩
        exact ⟨s, hab.symm, hs⟩
      · rintro ⟨s, hab, hs⟩
        exact ⟨hab.symm, s, hs⟩

/-- A digit character is not whitespace. -/
theorem isDigit_not_isWhitespace (c : Char) (h : c.isDigit = true) :
    c.isWhitespace = false := by
  cases hw : c.isWhitespace
  · rfl
  · exfalso
    simp only [Char.isWhitespace, Bool.or_eq_true, decide_eq_true_eq] at hw
    rcases hw with ((h1 | h1) | h1) | h1 <;> subst h1 <;> exact absurd h (by decide)

/-- `dropWhile` consumes exactly an all-`p` prefix when the next character
fails `p`. -/
theorem dropWhile_all_append {α : Type} (p : α → Bool) (l t : List α)
    (hall : ∀ c ∈ l, p c = true) (ht : ∀ c, t.head? = some c → p c = false) :
    (l ++ t).dropWhile p = t := by
  induction l with
  | nil =>
    simp only [List.nil_append]
    cases t with
    | nil => rfl
    | cons c u => exact List.dropWhile_cons_of_neg (by simp [ht c rfl])
  | cons a l2 ih =>
    rw [List.cons_append, List.dropWhile_cons_of_pos (hall a (List.mem_cons_self a l2))]
    exact ih fun c hc => hall c (List.mem_cons_of_mem a hc)

/-- Soundness of the flag matcher at one position: a match yields a genuine
decomposition with a maximal digit run, whose value is the result. -/
theorem matchBatchAt_sound (cs : List Char) (n : Nat) (h : matchBatchAt cs = some n) :
    ∃ ws ds post, cs = batchFlagChars ++ ws ++ ds ++ post ∧
      ws ≠ [] ∧ (∀ c ∈ ws, c.isWhitespace = true) ∧
      ds ≠ [] ∧ (∀ c ∈ ds, c.isDigit = true) ∧
      (∀ c, post.head? = some c → c.isDigit = false) ∧ digitsVal ds = n := by
  unfold matchBatchAt at h
  split at h
  case isFalse => exact Option.noConfusion h
  case isTrue hp =>
    split at h
    case isFalse => exact Option.noConfusion h
    case isTrue hcond =>
      obtain ⟨t, ht⟩ := (isPrefixOf_iff_append batchFlagChars cs).mp hp
      rw [ht, List.drop_left] at h hcond
      refine ⟨t.takeWhile Char.isWhitespace,
        (t.dropWhile Char.isWhitespace).takeWhile Char.isDigit,
        (t.dropWhile Char.isWhitespace).dropWhile Char.isDigit, ?_, ?_, ?_, ?_, ?_, ?_, ?_⟩
      · rw [ht, List.append_assoc, List.append_assoc]
        rw [List.takeWhile_append_dropWhile, List.takeWhile_append_dropWhile]
      · simp only [Bool.and_eq_true, Bool.not_eq_true', List.isEmpty_eq_false] at hcond
        exact hcond.1
      · exact fun c hc => List.mem_takeWhile_imp hc
      · simp only [Bool.and_eq_true, Bool.not_eq_true', List.isEmpty_eq_false] at hcond
        exact hcond.2
      · exact fun c hc => List.mem_takeWhile_imp hc
      · exact fun c hc => dropWhile_head_not _ _ _ hc
      · exact (Option.some.injEq _ _).mp h

/-- Soundness of the left-to-right flag search. -/
theorem findBatchSize_sound (cs : List Char) (n : Nat) (h : findBatchSize cs = some n) :
    FlagOccurVal cs n := by
  induction cs with
  | nil => exact Option.noConfusion h
  | cons c rest ih =>
    unfold findBatchSize at h
    cases hm : matchBatchAt (c :: rest) with
    | some m =>
      rw [hm] at h
      obtain ⟨ws, ds, post, h1, h2, h3, h4, h5, h6, h7⟩ :=
        matchBatchAt_sound (c :: rest) m hm
      exact ⟨[], ws, ds, post, by simpa using h1, h2, h3, h4, h5, h6,
        h7.trans (Option.some.injEq m n |>.mp h)⟩
    | none =>
      rw [hm] at h
      obtain ⟨pre, ws, ds, post, h1, h2, h3, h4, h5, h6, h7⟩ := ih h
      exact ⟨c :: pre, ws, ds, post, by rw [h1]; simp, h2, h3, h4, h5, h6, h7⟩

/-- Completeness of the flag matcher at the position of an occurrence. -/
theorem matchBatchAt_complete (ws ds post : List Char) (hws : ws ≠ [])
    (hwsall : ∀ c ∈ ws, c.isWhitespace = true) (hds : ds ≠ [])
    (hdsall : ∀ c ∈ ds, c.isDigit = true) :
    (matchBatchAt (batchFlagChars ++ (ws ++ (ds ++ post)))).isSome = true := by
  unfold matchBatchAt
  rw [if_pos ((isPrefixOf_iff_append _ _).mpr ⟨_, rfl⟩), List.drop_left]
  rcases ws with _ | ⟨w, ws2⟩
  · exact absurd rfl hws
  rcases ds with _ | ⟨d, ds2⟩
  · exact absurd rfl hds
  have hw : w.isWhitespace = true := hwsall w (List.mem_cons_self w ws2)
  have hd : d.isDigit = true := hdsall d (List.mem_cons_self d ds2)
  have hdrop : ((w :: ws2) ++ ((d :: ds2) ++ post)).dropWhile Char.isWhitespace =
      (d :: ds2) ++ post := by
    refine dropWhile_all_append Char.isWhitespace (w :: ws2) ((d :: ds2) ++ post) hwsall ?_
    intro c hc
    simp only [List.cons_append, List.head?_cons, Option.some.injEq] at hc
    subst hc
    exact isDigit_not_isWhitespace d hd
  rw [hdrop]
  rw [if_pos]
  · rfl
  · rw [List.cons_append, List.takeWhile_cons_of_pos hw, List.cons_append,
      List.takeWhile_cons_of_pos hd]
    simp

/-- `findBatchSize` succeeds on a list whose head position matches. -/
theorem findBatchSize_isSome_of_match (cs : List Char)
    (h : (matchBatchAt cs).isSome = true) : (findBatchSize cs).isSome = true := by
  cases cs with
  | nil => exact absurd h (by decide)
  | cons c rest =>
    unfold findBatchSize
    cases hm : matchBatchAt (c :: rest) with
    | some m => simp
    | none => rw [hm] at h; exact absurd h (by simp)

/-- Completeness of the left-to-right flag search. -/
theorem findBatchSize_complete (cs : List Char) (h : FlagOccur cs) :
    (findBatchSize cs).isSome = true := by
  obtain ⟨pre, ws, ds, post, hcs, hws, hwsall, hds, hdsall⟩ := h
  subst hcs
  induction pre with
  | nil =>
    simp only [List.nil_append, List.append_assoc]
    exact findBatchSize_isSome_of_match _
      (matchBatchAt_complete ws ds post hws hwsall hds hdsall)
  | cons c pre ih =>
    simp only [List.cons_append]
    unfold findBatchSize
    cases hm : matchBatchAt (c :: (pre ++ batchFlagChars ++ ws ++ ds ++ post)) with
    | some m => simp
    | none =>
      simpa using ih

/-- C9: for a run whose metadata contains a command string, if the command
contains a `--batch-size <int>` flag then `batch_size` is that parsed
integer (the value of an actual, maximal digit group of an occurrence —
`FlagOccurVal`), and if it contains no such flag then `batch_size` is the
absent-sentinel, which is distinct from every integer (in particular from
`0`); no parse error is possible (the functions are total). -/
theorem C9_batch_size (content cmd : String)
    (hc : (extract_run_info content).command = some cmd) :
    (¬ FlagOccur cmd.toList → (extract_run_info content).batch_size = some BatchSize.na) ∧
    (FlagOccur cmd.toList →
      ∃ n, (extract_run_info content).batch_size = some (BatchSize.val n) ∧
        FlagOccurVal cmd.toList n) ∧
    (∀ n : Nat, BatchSize.val n ≠ BatchSize.na) := by
  have hc' : (keyValueOf content "@ Command").map pyStrip = some cmd := hc
  have hb : (extract_run_info content).batch_size =
      some (match findBatchSize cmd.toList with
            | some n => BatchSize.val n
            | none => BatchSize.na) := by
    show ((keyValueOf content "@ Command").map pyStrip).map _ = _
    rw [hc']
    rfl
  refine ⟨fun hno => ?_, fun hyes => ?_, fun n h => BatchSize.noConfusion h⟩
  · cases hf : findBatchSize cmd.toList with
    | none => rw [hb, hf]
    | some m =>
      exfalso
      apply hno
      obtain ⟨pre, ws, ds, post, h1, h2, h3, h4, h5, _, _⟩ :=
        findBatchSize_sound cmd.toList m hf
      exact ⟨pre, ws, ds, post, h1, h2, h3, h4, h5⟩
  · have hsome := findBatchSize_complete cmd.toList hyes
    cases hf : findBatchSize cmd.toList with
    | none => rw [hf] at hsome; exact absurd hsome (by simp)
    | some m =>
      refine ⟨m, ?_, findBatchSize_sound cmd.toList m hf⟩
      rw [hb, hf]

/-- C9 witness: the realistic document's command carries
`--batch-size 64` and the parsed batch size is 64; the sentinel is not an
integer. -/
theorem C9_batch_size_witness :
    (∃ n, (extract_run_info exDoc).batch_size = some (BatchSize.val n) ∧
      FlagOccurVal "python train.py --batch-size 64 --epochs 2".toList n) ∧
    (extract_run_info exDoc).batch_size = some (BatchSize.val 64) ∧
    BatchSize.val 0 ≠ BatchSize.na :=
  ⟨(C9_batch_size exDoc "python train.py --batch-size 64 --epochs 2" (by decide)).2.1
      ⟨"python train.py ".toList, [' '], "64".toList, " --epochs 2".toList,
        by decide, by decide, by decide, by decide, by decide⟩,
   by decide,
   (C9_batch_size exDoc "python train.py --batch-size 64 --epochs 2" (by decide)).2.2 0⟩

/-- The label stored in an Aggregate Time row is the space-join of the label
tokens the scan collected. -/
theorem parseAggRest_label (lab rest : List String) (op : AggOp)
    (h : parseAggRest lab rest = some op) : op.call_type = joinSpace lab := by
  rcases rest with _ | ⟨r0, _ | ⟨r1, _ | ⟨r2, _ | ⟨r3, _ | ⟨r4, _ | ⟨r5, tl⟩⟩⟩⟩⟩⟩ <;>
    try exact Option.noConfusion h
  simp only [parseAggRest] at h
  cases c0 : pyInt r0 <;> cases c1 : pyFloat r1 <;> cases c2 : pyFloat r2 <;>
    cases c3 : pyFloat r3 <;> cases c4 : pyInt r4 <;> cases c5 : pyFloat r5 <;> simp_all
  rw [← h]

/-- The label stored in a Message Size row is the space-join of the label
tokens. -/
theorem parseMsgRest_label (lab rest : List String) (mop : MsgOp)
    (h : parseMsgRest lab rest = some mop) : mop.call_type = joinSpace lab := by
  rcases rest with _ | ⟨r0, _ | ⟨r1, _ | ⟨r2, _ | ⟨r3, _ | ⟨r4, tl⟩⟩⟩⟩⟩ <;>
    try exact Option.noConfusion h
  simp only [parseMsgRest] at h
  cases c0 : pyInt r0 <;> cases c1 : pyInt r1 <;> cases c2 : pyFloat r2 <;>
    cases c3 : pyFloat r3 <;> cases c4 : pyFloat r4 <;> simp_all
  rw [← h]

/-- The name stored in a Callsite row is the space-join of the label
tokens. -/
theorem parseCallsiteRest_name (lab rest : List String) (recd : CallsiteRecord)
    (h : parseCallsiteRest lab rest = some recd) : recd.name = joinSpace lab := by
  rcases rest with
    _ | ⟨r0, _ | ⟨r1, _ | ⟨r2, _ | ⟨r3, _ | ⟨r4, _ | ⟨r5, _ | ⟨r6, _ | ⟨r7, tl⟩⟩⟩⟩⟩⟩⟩⟩ <;>
    try exact Option.noConfusion h
  simp only [parseCallsiteRest] at h
  by_cases hstar : r1 = "*"
  · subst hstar
    cases c0 : pyInt r0 <;> cases c2 : pyInt r2 <;> cases c3 : pyFloat r3 <;>
      cases c4 : pyFloat r4 <;> cases c5 : pyFloat r5 <;> cases c6 : pyFloat r6 <;>
      cases c7 : pyFloat r7 <;> simp_all
    rw [← h]
  · rw [if_neg hstar] at h
    cases c0 : pyInt r0 <;> cases c1 : pyInt r1 <;> cases c2 : pyInt r2 <;>
      cases c3 : pyFloat r3 <;> cases c4 : pyFloat r4 <;> cases c5 : pyFloat r5 <;>
      cases c6 : pyFloat r6 <;> cases c7 : pyFloat r7 <;> simp_all
    rw [← h]

/-- C1 (amended): in the three label-carrying extractors, the extracted
label is the maximal leading run of tokens that are NOT composed purely of
digit characters (Python `str.isdigit`): every label token fails `isdigit`,
scanning stops at the first all-digits token (so sign-prefixed or
decimal/exponent tokens such as `-5` or `1.5` are absorbed into the label,
not treated as field starts), and the remaining tokens form the field
tuple. -/
theorem C1_label_scan (line : String) :
    (∀ op, aggLineStep line = some op → ∃ lab flds,
      pySplitWs line = lab ++ flds ∧
      (∀ t ∈ lab, pyIsDigit t = false) ∧
      (∀ t, flds.head? = some t → pyIsDigit t = true) ∧
      op.call_type = joinSpace lab) ∧
    (∀ mop, msgLineStep line = some mop → ∃ lab flds,
      pySplitWs line = lab ++ flds ∧
      (∀ t ∈ lab, pyIsDigit t = false) ∧
      (∀ t, flds.head? = some t → pyIsDigit t = true) ∧
      mop.call_type = joinSpace lab) ∧
    (∀ recd, callsiteLineStep line = some recd → ∃ lab flds,
      pySplitWs (pyStrip line) = lab ++ flds ∧
      (∀ t ∈ lab, pyIsDigit t = false) ∧
      (∀ t, flds.head? = some t → pyIsDigit t = true) ∧
      recd.name = joinSpace lab) := by
  refine ⟨fun op h => ?_, fun mop h => ?_, fun recd h => ?_⟩
  · unfold aggLineStep at h
    split at h
    · unfold parseAggParts at h
      split at h
      · refine ⟨(pySplitWs line).takeWhile (fun p => !pyIsDigit p),
          (pySplitWs line).dropWhile (fun p => !pyIsDigit p),
          (List.takeWhile_append_dropWhile _ _).symm, ?_, ?_, parseAggRest_label _ _ _ h⟩
        · intro t htl
          simpa using List.mem_takeWhile_imp htl
        · intro t hh
          simpa using dropWhile_head_not _ _ _ hh
      · exact Option.noConfusion h
    · exact Option.noConfusion h
  · unfold msgLineStep at h
    split at h
    · unfold parseMsgParts at h
      split at h
      · refine ⟨(pySplitWs line).takeWhile (fun p => !pyIsDigit p),
          (pySplitWs line).dropWhile (fun p => !pyIsDigit p),
          (List.takeWhile_append_dropWhile _ _).symm, ?_, ?_, parseMsgRest_label _ _ _ h⟩
        · intro t htl
          simpa using List.mem_takeWhile_imp htl
        · intro t hh
          simpa using dropWhile_head_not _ _ _ hh
      · exact Option.noConfusion h
    · exact Option.noConfusion h
  · unfold callsiteLineStep at h
    split at h
    · exact Option.noConfusion h
    · unfold parseCallsiteParts at h
      split at h
      · refine ⟨(pySplitWs (pyStrip line)).takeWhile (fun p => !pyIsDigit p),
          (pySplitWs (pyStrip line)).dropWhile (fun p => !pyIsDigit p),
          (List.takeWhile_append_dropWhile _ _).symm, ?_, ?_, parseCallsiteRest_name _ _ _ h⟩
        · intro t htl
          simpa using List.mem_takeWhile_imp htl
        · intro t hh
          simpa using dropWhile_head_not _ _ _ hh
      · exact Option.noConfusion h

/-- C1 witness: the scan on a concrete parsed line. -/
theorem C1_label_scan_witness :
    ∃ lab flds,
      pySplitWs "MPI_Send 1 2.0 3.0 4.0 5 6.0" = lab ++ flds ∧
      (∀ t ∈ lab, pyIsDigit t = false) ∧
      (∀ t, flds.head? = some t → pyIsDigit t = true) ∧
      (⟨"MPI_Send", 1, ⟨20, -1⟩, ⟨30, -1⟩, ⟨40, -1⟩, 5, ⟨60, -1⟩⟩ : AggOp).call_type =
        joinSpace lab :=
  (C1_label_scan "MPI_Send 1 2.0 3.0 4.0 5 6.0").1
    ⟨"MPI_Send", 1, ⟨20, -1⟩, ⟨30, -1⟩, ⟨40, -1⟩, 5, ⟨60, -1⟩⟩ (by decide)

/-- Tokenizing an all-whitespace tail produces nothing beyond the pending
token. -/
theorem wsTokensAux_all_ws (t : List Char) :
    (∀ c ∈ t, c.isWhitespace = true) → ∀ cur, wsTokensAux cur t = wsTokensAux cur [] := by
  induction t with
  | nil => intro _ _; rfl
  | cons a u ih =>
    intro hall cur
    have ha := hall a (List.mem_cons_self a u)
    have ihu := ih fun c hc => hall c (List.mem_cons_of_mem a hc)
    by_cases hc : cur.isEmpty = true
    · simp [wsTokensAux, ha, hc, ihu []]
    · simp [wsTokensAux, ha, hc, ihu []]

/-- Leading whitespace does not change the token list. -/
theorem wsTokens_dropWhile (cs : List Char) :
    wsTokensAux [] (cs.dropWhile Char.isWhitespace) = wsTokensAux [] cs := by
  induction cs with
  | nil => rfl
  | cons a u ih =>
    by_cases ha : a.isWhitespace = true
    · rw [List.dropWhile_cons_of_pos ha, ih]
      simp [wsTokensAux, ha]
    · rw [List.dropWhile_cons_of_neg (by simpa using ha)]

/-- Trailing whitespace does not change the token list. -/
theorem wsTokensAux_append_ws (t : List Char) (htall : ∀ c ∈ t, c.isWhitespace = true)
    (xs : List Char) : ∀ cur, wsTokensAux cur (xs ++ t) = wsTokensAux cur xs := by
  induction xs with
  | nil =>
    intro cur
    exact wsTokensAux_all_ws t htall cur
  | cons a u ih =>
    intro cur
    by_cases ha : a.isWhitespace = true
    · by_cases hc : cur.isEmpty = true
      · simp [wsTokensAux, ha, hc, List.cons_append, ih]
      · simp [wsTokensAux, ha, hc, List.cons_append, ih]
    · simp [wsTokensAux, ha, List.cons_append, ih]

/-- Python `line.strip().split()` equals `line.split()`: stripping the ends
does not change the whitespace-split token list. -/
theorem pySplitWs_pyStrip (s : String) : pySplitWs (pyStrip s) = pySplitWs s := by
  show wsTokensAux [] (pyStripChars s.toList) = wsTokensAux [] s.toList
  unfold pyStripChars
  have hdecomp :
      ((s.toList.dropWhile Char.isWhitespace).reverse.dropWhile Char.isWhitespace).reverse ++
        ((s.toList.dropWhile Char.isWhitespace).reverse.takeWhile Char.isWhitespace).reverse =
      s.toList.dropWhile Char.isWhitespace := by
    conv_rhs => rw [← List.reverse_reverse (s.toList.dropWhile Char.isWhitespace),
      ← List.takeWhile_append_dropWhile (p := Char.isWhitespace)
        (l := (s.toList.dropWhile Char.isWhitespace).reverse)]
    rw [List.reverse_append]
  have htall : ∀ c ∈ ((s.toList.dropWhile Char.isWhitespace).reverse.takeWhile
      Char.isWhitespace).reverse, c.isWhitespace = true :=
    fun c hc => List.mem_takeWhile_imp (List.mem_reverse.mp hc)
  have h1 := wsTokensAux_append_ws _ htall
    ((s.toList.dropWhile Char.isWhitespace).reverse.dropWhile Char.isWhitespace).reverse []
  rw [hdecomp] at h1
  rw [← h1]
  exact wsTokens_dropWhile s.toList

/-- C8 (amended): the stored label is the collected label tokens joined with
single spaces.  This reproduces the original text of a multi-word name
exactly when its tokens are separated by single spaces in the document; any
other whitespace run between label tokens is collapsed to a single space
(see the counterexample). -/
theorem C8_label_single_space (line : String) :
    (∀ op, aggLineStep line = some op →
      op.call_type = joinSpace ((pySplitWs line).takeWhile fun p => !pyIsDigit p)) ∧
    (∀ mop, msgLineStep line = some mop →
      mop.call_type = joinSpace ((pySplitWs line).takeWhile fun p => !pyIsDigit p)) ∧
    (∀ recd, callsiteLineStep line = some recd →
      recd.name = joinSpace ((pySplitWs line).takeWhile fun p => !pyIsDigit p)) := by
  refine ⟨fun op h => ?_, fun mop h => ?_, fun recd h => ?_⟩
  · unfold aggLineStep at h
    split at h
    · unfold parseAggParts at h
      split at h
      · exact parseAggRest_label _ _ _ h
      · exact Option.noConfusion h
    · exact Option.noConfusion h
  · unfold msgLineStep at h
    split at h
    · unfold parseMsgParts at h
      split at h
      · exact parseMsgRest_label _ _ _ h
      · exact Option.noConfusion h
    · exact Option.noConfusion h
  · unfold callsiteLineStep at h
    split at h
    · exact Option.noConfusion h
    · unfold parseCallsiteParts at h
      split at h
      · rw [parseCallsiteRest_name _ _ _ h, pySplitWs_pyStrip]
      · exact Option.noConfusion h

/-- C8 witness: a single-space-separated two-token label round-trips. -/
theorem C8_label_single_space_witness :
    (⟨"Custom Op", 7, ⟨15, -1⟩, ⟨1, -1⟩, ⟨30, -1⟩, 10, ⟨5, -1⟩⟩ : AggOp).call_type =
      joinSpace ((pySplitWs "Custom Op 7 1.5 0.1 3.0 10 0.5").takeWhile fun p =>
        !pyIsDigit p) :=
  (C8_label_single_space "Custom Op 7 1.5 0.1 3.0 10 0.5").1
    ⟨"Custom Op", 7, ⟨15, -1⟩, ⟨1, -1⟩, ⟨30, -1⟩, 10, ⟨5, -1⟩⟩ (by decide)


/-- The substring search succeeds exactly when the pattern is an infix. -/
theorem findSplit_isSome_iff (cs pat : List Char) :
    (findSplit cs pat).isSome = true ↔ pat <:+: cs := by
  induction cs with
  | nil =>
    constructor
    · intro h
      by_cases hp : pat.isEmpty = true
      · rw [List.isEmpty_iff.mp hp]
      · exfalso
        unfold findSplit at h
        rw [if_neg hp] at h
        exact absurd h (by simp)
    · intro h
      rw [List.infix_nil.mp h]
      exact rfl
  | cons c rest ih =>
    by_cases hp : pat.isPrefixOf (c :: rest) = true
    · simp only [findSplit, if_pos hp, Option.isSome_some, true_iff]
      obtain ⟨t, ht⟩ := (isPrefixOf_iff_append pat (c :: rest)).mp hp
      exact ⟨[], t, by simp [ht]⟩
    · have hstep : (findSplit (c :: rest) pat).isSome = (findSplit rest pat).isSome := by
        conv_lhs => unfold findSplit
        rw [if_neg hp]
        rcases hfs : findSplit rest pat with _ | ⟨a, b⟩ <;> rfl
      rw [hstep]
      constructor
      · intro hsome
        exact List.infix_cons_iff.mpr (Or.inr (ih.mp hsome))
      · intro hcon
        rcases List.infix_cons_iff.mp hcon with hpre | hinf
        · obtain ⟨t, ht⟩ := hpre
          exact absurd ((isPrefixOf_iff_append pat (c :: rest)).mpr ⟨t, ht.symm⟩) hp
        · exact ih.mpr hinf

/-- Python substring containment coincides with list-infix containment. -/
theorem strContains_iff (hay pat : String) :
    strContains hay pat = true ↔ pat.toList <:+: hay.toList :=
  findSplit_isSome_iff hay.toList pat.toList

/-- The interface inference, characterized by infix containment in the
lowercased environment-variable value. -/
theorem infer_interface_characterization (content : String) :
    infer_interface_from_log content =
      (if "mpip_tcp".toList <:+: envLowerChars content then "tcp"
       else if ("mpip_opx".toList <:+: envLowerChars content ∨
           "omni".toList <:+: envLowerChars content) then "opx"
       else "unknown") := by
  unfold infer_interface_from_log envLowerChars
  cases hkv : keyValueOf content "@ MPIP env var" with
  | none =>
    simp only [Option.getD_none]
    rw [if_neg (by decide), if_neg (by decide)]
  | some v =>
    simp only [Option.getD_some]
    by_cases t1 : "mpip_tcp".toList <:+: (lowerStr v).toList
    · rw [if_pos ((strContains_iff _ _).mpr t1), if_pos t1]
    · rw [if_neg (fun hb => t1 ((strContains_iff _ _).mp hb)), if_neg t1]
      by_cases t2 : ("mpip_opx".toList <:+: (lowerStr v).toList ∨
          "omni".toList <:+: (lowerStr v).toList)
      · rw [if_pos ?side, if_pos t2]
        case side =>
          rcases t2 with ha | hb
          · exact Bool.or_eq_true _ _ |>.mpr (Or.inl ((strContains_iff _ _).mpr ha))
          · exact Bool.or_eq_true _ _ |>.mpr (Or.inr ((strContains_iff _ _).mpr hb))
      · rw [if_neg ?side, if_neg t2]
        case side =>
          intro hb
          rcases (Bool.or_eq_true _ _).mp hb with ha | ha
          · exact t2 (Or.inl ((strContains_iff _ _).mp ha))
          · exact t2 (Or.inr ((strContains_iff _ _).mp ha))

/-- C6 (amended): a non-empty caller-supplied interface label is used
verbatim regardless of log content; otherwise the environment-variable value
is matched case-insensitively by substring, where the substring `mpip_tcp`
(not `tcp` alone) classifies as tcp, else the substring `mpip_opx` (not
`opx` alone) or `omni` classifies as opx, and otherwise — including when the
metadata line is absent, in which case the lowercased value below is empty —
the result is `unknown`. -/
theorem C6_interface_decision (content s : String) (h : s ≠ "") :
    chooseInterface (some s) content = s ∧
    (chooseInterface none content = "tcp" ↔
      "mpip_tcp".toList <:+: envLowerChars content) ∧
    (chooseInterface none content = "opx" ↔
      (¬ ("mpip_tcp".toList <:+: envLowerChars content) ∧
        ("mpip_opx".toList <:+: envLowerChars content ∨
          "omni".toList <:+: envLowerChars content))) ∧
    (chooseInterface none content = "unknown" ↔
      (¬ ("mpip_tcp".toList <:+: envLowerChars content) ∧
        ¬ ("mpip_opx".toList <:+: envLowerChars content) ∧
        ¬ ("omni".toList <:+: envLowerChars content))) := by
  have hch : chooseInterface none content = infer_interface_from_log content := rfl
  refine ⟨by simp [chooseInterface, h], ?_, ?_, ?_⟩ <;>
    rw [hch, infer_interface_characterization] <;>
    split_ifs with h1 h2 <;>
    simp_all [show ("tcp" : String) ≠ "opx" from by decide,
      show ("tcp" : String) ≠ "unknown" from by decide,
      show ("opx" : String) ≠ "tcp" from by decide,
      show ("opx" : String) ≠ "unknown" from by decide,
      show ("unknown" : String) ≠ "tcp" from by decide,
      show ("unknown" : String) ≠ "opx" from by decide] <;>
    tauto

/-- C6 witness: an explicit non-empty override wins on the realistic
document, whose env value lowercases to contain `mpip_tcp`. -/
theorem C6_interface_decision_witness :
    chooseInterface (some "eth0") exDoc = "eth0" ∧
    (chooseInterface none exDoc = "tcp" ↔
      "mpip_tcp".toList <:+: envLowerChars exDoc) ∧
    (chooseInterface none exDoc = "opx" ↔
      (¬ ("mpip_tcp".toList <:+: envLowerChars exDoc) ∧
        ("mpip_opx".toList <:+: envLowerChars exDoc ∨
          "omni".toList <:+: envLowerChars exDoc))) ∧
    (chooseInterface none exDoc = "unknown" ↔
      (¬ ("mpip_tcp".toList <:+: envLowerChars exDoc) ∧
        ¬ ("mpip_opx".toList <:+: envLowerChars exDoc) ∧
        ¬ ("omni".toList <:+: envLowerChars exDoc))) :=
  C6_interface_decision exDoc "eth0" (by decide)
